import Mathlib

/-!
# Verification of the backtesting engine of `app/services/backtest.py`

This file is a shallow embedding, in Lean 4, of the event-driven backtesting
engine found in `app/services/backtest.py` together with the data model of
`app/models/backtest.py`.  Python floats are modelled as rationals (`ℚ`),
`datetime` values as integers (`Int`), Python dictionaries as insertion-ordered
association lists, and fallible Python code as `Except PyErr`-valued
functions.  Two callables referenced by the engine are absent from the
repository (`BacktestService._close_position` and
`technical_analysis_service.calculate_indicator`); they are modelled from the
specification and are marked as such in their doc comments.  Everything else
is translated directly from the source.
-/

set_option linter.unusedVariables false

namespace Backtest

/-- The Python exception kinds that the embedded code can raise. -/
inductive PyErr where
  | keyError
  | typeError
  | indexError
  | nameError
  | zeroDivisionError
  | valueError
  | attributeError
  deriving DecidableEq, Repr

/-- One OHLCV bar (a row of the per-symbol `pd.DataFrame`). -/
structure Bar where
  open_ : ℚ
  high : ℚ
  low : ℚ
  close : ℚ
  volume : ℚ
  deriving DecidableEq, Repr

/-- A per-symbol data frame: the index (timestamps, as integers) paired with
rows, in index order. -/
abbrev Frame := List (Int × Bar)

/-- The `data` mapping of the engine: `symbol → DataFrame`, insertion ordered. -/
abbrev DataMap := List (String × Frame)

/-- First-match association-list lookup (Python `dict` access semantics;
keys of a real `dict` are unique, which we carry as a hypothesis where it
matters). -/
def lookupA {α : Type} (m : List (String × α)) (k : String) : Option α :=
  match m with
  | [] => none
  | (k', v) :: rest => if k' = k then some v else lookupA rest k

/-- Replace the value at a key (first occurrence), leaving order intact:
Python `d[k] = v` for a present key. -/
def updateA {α : Type} (m : List (String × α)) (k : String) (v : α) :
    List (String × α) :=
  match m with
  | [] => []
  | (k', v') :: rest =>
      if k' = k then (k', v) :: rest else (k', v') :: updateA rest k v

/-- Remove a key (first occurrence): Python `del d[k]`. -/
def eraseA {α : Type} (m : List (String × α)) (k : String) :
    List (String × α) :=
  match m with
  | [] => []
  | (k', v') :: rest =>
      if k' = k then rest else (k', v') :: eraseA rest k

/-- Equality of embedded fallible results is decidable. -/
instance {ε α : Type} [DecidableEq ε] [DecidableEq α] : DecidableEq (Except ε α) :=
  fun a b =>
    match a, b with
    | .ok x, .ok y =>
        if h : x = y then .isTrue (by rw [h])
        else .isFalse (fun hc => h (Except.ok.inj hc))
    | .error x, .error y =>
        if h : x = y then .isTrue (by rw [h])
        else .isFalse (fun hc => h (Except.error.inj hc))
    | .ok _, .error _ => .isFalse (fun hc => Except.noConfusion hc)
    | .error _, .ok _ => .isFalse (fun hc => Except.noConfusion hc)

/-- Python `d[k]`: raises `KeyError` when absent. -/
def getKey {α : Type} (o : Option α) : Except PyErr α :=
  match o with
  | some v => .ok v
  | none => .error .keyError

/-- A value appearing in a strategy condition dictionary
(`Dict[str, Union[str, float]]`). -/
inductive CondVal where
  | str (s : String)
  | num (q : ℚ)
  deriving DecidableEq, Repr

/-- A value produced by the indicator evaluator: a scalar, the not-a-number
sentinel, or a numeric series. -/
inductive IndValue where
  | num (q : ℚ)
  | nan
  | series (l : List ℚ)
  deriving DecidableEq, Repr

/-- One entry/exit condition dictionary.  Only the keys that
`_check_condition` and `_generate_signals` read are modelled; a key that the
Python dict lacks is `none`. -/
structure Condition where
  indicator : Option String := none
  operator : Option String := none
  value : Option CondVal := none
  indicator1 : Option String := none
  indicator2 : Option String := none
  side : Option String := none
  deriving DecidableEq, Repr

/-- Python `indicator > value` for an indicator value against a condition
value: float/float compares, anything involving a string or a series raises
`TypeError`, and NaN compares false. -/
def pyGT : IndValue → CondVal → Except PyErr Bool
  | .num a, .num b => .ok (decide (a > b))
  | .nan, .num _ => .ok false
  | _, _ => .error .typeError

/-- Python `indicator < value`; see `pyGT`. -/
def pyLT : IndValue → CondVal → Except PyErr Bool
  | .num a, .num b => .ok (decide (a < b))
  | .nan, .num _ => .ok false
  | _, _ => .error .typeError

/-- Python `indicator >= value`; see `pyGT`. -/
def pyGE : IndValue → CondVal → Except PyErr Bool
  | .num a, .num b => .ok (decide (a ≥ b))
  | .nan, .num _ => .ok false
  | _, _ => .error .typeError

/-- Python `indicator <= value`; see `pyGT`. -/
def pyLE : IndValue → CondVal → Except PyErr Bool
  | .num a, .num b => .ok (decide (a ≤ b))
  | .nan, .num _ => .ok false
  | _, _ => .error .typeError

/-- Python `indicator == value`: equality never raises; values of different
types (or NaN) compare unequal. -/
def pyEQ : IndValue → CondVal → Bool
  | .num a, .num b => decide (a = b)
  | _, _ => false

/-- Python negative indexing `v[-k]` (`k = 1` or `2` in the engine): raises
`TypeError` on a scalar and `IndexError` on a series shorter than `k`. -/
def pyNegIdx (v : IndValue) (k : Nat) : Except PyErr ℚ :=
  match v with
  | .series l => if k ≤ l.length ∧ 0 < k then .ok (l.getD (l.length - k) 0)
                 else .error .indexError
  | _ => .error .typeError

/-- The body of the `try:` block of `BacktestService._check_condition`
(lines 298–331), with every raising operation explicit. -/
def checkConditionExc (condition : Condition)
    (indicators : List (String × IndValue)) (current_data : Bar) :
    Except PyErr Bool := do
  let key ← getKey condition.indicator
  match lookupA indicators key with
  | none => return false
  | some indicator =>
    let operator ← getKey condition.operator
    let value ← getKey condition.value
    if operator = ">" then pyGT indicator value
    else if operator = "<" then pyLT indicator value
    else if operator = ">=" then pyGE indicator value
    else if operator = "<=" then pyLE indicator value
    else if operator = "==" then return pyEQ indicator value
    else if operator = "cross_above" then do
      let k1 ← getKey condition.indicator1
      let i1 ← getKey (lookupA indicators k1)
      let a2 ← pyNegIdx i1 2
      let k2 ← getKey condition.indicator2
      let i2 ← getKey (lookupA indicators k2)
      let b2 ← pyNegIdx i2 2
      if a2 ≤ b2 then do
        let i1' ← getKey (lookupA indicators k1)
        let a1 ← pyNegIdx i1' 1
        let i2' ← getKey (lookupA indicators k2)
        let b1 ← pyNegIdx i2' 1
        return decide (a1 > b1)
      else
        return false
    else if operator = "cross_below" then do
      let k1 ← getKey condition.indicator1
      let i1 ← getKey (lookupA indicators k1)
      let a2 ← pyNegIdx i1 2
      let k2 ← getKey condition.indicator2
      let i2 ← getKey (lookupA indicators k2)
      let b2 ← pyNegIdx i2 2
      if a2 ≥ b2 then do
        let i1' ← getKey (lookupA indicators k1)
        let a1 ← pyNegIdx i1' 1
        let i2' ← getKey (lookupA indicators k2)
        let b1 ← pyNegIdx i2' 1
        return decide (a1 < b1)
      else
        return false
    else
      return false

/-- `BacktestService._check_condition`: the `try`/`except` wrapper that turns
every exception of the body into `False` (lines 291–335). -/
def checkCondition (condition : Condition)
    (indicators : List (String × IndValue)) (current_data : Bar) : Bool :=
  match checkConditionExc condition indicators current_data with
  | .ok b => b
  | .error _ => false

/-- Index lookup in a data frame (`timestamp in df.index` / `df.loc[timestamp]`). -/
def lookupF (df : Frame) (timestamp : Int) : Option Bar :=
  match df with
  | [] => none
  | (t, row) :: rest => if t = timestamp then some row else lookupF rest timestamp

/-- `app.models.backtest.OrderType`. -/
inductive OrderType where
  | market | limit | stop | stop_limit
  deriving DecidableEq, Repr

/-- `app.models.backtest.OrderSide`. -/
inductive OrderSide where
  | buy | sell
  deriving DecidableEq, Repr

/-- `app.models.backtest.PositionType`. -/
inductive PositionType where
  | long | short
  deriving DecidableEq, Repr

/-- `app.models.backtest.OrderStatus`. -/
inductive OrderStatus where
  | pending | filled | cancelled | expired | rejected
  deriving DecidableEq, Repr

/-- `app.models.technical.TrendDirection` (the class exists in that module;
the point of several claims is that `backtest.py` never imports the name). -/
inductive TrendDirection where
  | bullish | bearish | sideways
  deriving DecidableEq, Repr

/-- `app.models.technical.SignalStrength`. -/
inductive SignalStrength where
  | weak | medium | strong
  deriving DecidableEq, Repr

/-- `app.models.backtest.BacktestOrder`.  `uuid4()` draws are modelled by an
ambient stream of identifiers: during the simulation the `id` field records
the index of the draw (the orders are created in draw order), and the stream
is consulted when the `BacktestResult` is assembled, so that the k-th
`uuid4()` call of a run returns the k-th element of the stream. -/
structure BacktestOrder where
  id : Nat
  symbol : String
  type : OrderType
  side : OrderSide
  quantity : ℚ
  price : Option ℚ := none
  stop_price : Option ℚ := none
  timestamp : Int
  status : OrderStatus := .pending
  fill_price : Option ℚ := none
  fill_timestamp : Option Int := none
  commission : ℚ := 0
  slippage : ℚ := 0
  deriving DecidableEq, Repr

/-- `app.models.backtest.Position`. -/
structure Position where
  symbol : String
  type : PositionType
  quantity : ℚ
  entry_price : ℚ
  entry_timestamp : Int
  current_price : ℚ
  current_timestamp : Int
  unrealized_pnl : ℚ
  realized_pnl : ℚ := 0
  commission_paid : ℚ := 0
  deriving DecidableEq, Repr

/-- A closed-trade record: the dict appended to `portfolio['trades']`
(lines 464–474).  The dict built by `_process_orders` has no `reason` key
(`reason = none`); the spec-modelled forced close books one. -/
structure Trade where
  symbol : String
  entry_price : ℚ
  entry_timestamp : Int
  exit_price : ℚ
  exit_timestamp : Int
  quantity : ℚ
  pnl : ℚ
  commission : ℚ
  type : PositionType
  reason : Option String := none
  deriving DecidableEq, Repr

/-- One snapshot of `portfolio['equity_curve']`. -/
structure EquityPoint where
  timestamp : Int
  equity : ℚ
  cash : ℚ
  positions_value : ℚ
  deriving DecidableEq, Repr

/-- The `portfolio` dict created by `_initialize_portfolio`. -/
structure Portfolio where
  cash : ℚ
  equity : ℚ
  positions : List (String × Position)
  orders : List BacktestOrder
  trades : List Trade
  equity_curve : List EquityPoint
  deriving DecidableEq, Repr

/-- `app.models.backtest.BacktestConfig` (validated fields). -/
structure BacktestConfig where
  start_date : Int
  end_date : Int
  initial_capital : ℚ
  symbols : List String
  timeframe : String
  commission_rate : ℚ := 1 / 1000
  slippage_rate : ℚ := 1 / 10000
  enable_shorting : Bool := false
  max_positions : Nat := 5
  position_size : ℚ := 1 / 5
  stop_loss : Option ℚ := none
  take_profit : Option ℚ := none
  use_fractional_shares : Bool := true
  min_trade_amount : ℚ := 100
  max_trade_amount : Option ℚ := none
  deriving DecidableEq, Repr

/-- `app.models.backtest.BacktestSignal`. -/
structure BacktestSignal where
  symbol : String
  timestamp : Int
  type : String
  direction : TrendDirection
  strength : SignalStrength
  price : ℚ
  deriving DecidableEq, Repr

/-- The keyword arguments of one configured indicator
(`Dict[str, Union[str, int, float]]`). -/
abbrev IndParams := List (String × CondVal)

/-- `app.models.backtest.StrategyConfig`, restricted to the fields the engine
reads. -/
structure StrategyConfig where
  indicators : List (String × IndParams)
  entry_conditions : List Condition
  exit_conditions : List Condition
  deriving Inhabited

/-- Python truthiness of `config.stop_loss` / `config.take_profit`
(`None` and `0.0` are both falsy). -/
def truthy (o : Option ℚ) : Bool :=
  match o with
  | some v => v ≠ 0
  | none => false

/-- Σ `pos.quantity * pos.current_price` over the open positions
(lines 488–491). -/
def positionsValue (positions : List (String × Position)) : ℚ :=
  (positions.map (fun sp => sp.2.quantity * sp.2.current_price)).sum

/-- Modelled from the spec: `BacktestService._close_position` is called at
lines 216 and 232 but defined nowhere in the repository.  Following §4.5 of
the spec, a forced close bypasses the signal path: it books a `Trade` whose
closing `reason` is the given string, removes the position from the
open-positions mapping, and credits the close-out value to cash; it touches
no order.  Looking up an absent symbol fails (a `KeyError`), as any Python
implementation reading `portfolio['positions'][symbol]` would. -/
def closePosition (portfolio : Portfolio) (symbol : String) (price : ℚ)
    (timestamp : Int) (reason : String) : Except PyErr Portfolio :=
  match lookupA portfolio.positions symbol with
  | none => .error .keyError
  | some pos =>
    let pnl := if pos.type = .long then (price - pos.entry_price) * pos.quantity
               else (pos.entry_price - price) * pos.quantity
    let proceeds := if pos.type = .long then price * pos.quantity else pnl
    .ok { portfolio with
          cash := portfolio.cash + proceeds,
          positions := eraseA portfolio.positions symbol,
          trades := portfolio.trades ++
            [{ symbol := symbol, entry_price := pos.entry_price,
               entry_timestamp := pos.entry_timestamp, exit_price := price,
               exit_timestamp := timestamp, quantity := pos.quantity,
               pnl := pnl, commission := pos.commission_paid, type := pos.type,
               reason := some reason }] }

/-- The mark-to-market of one position (lines 189–203): set the current
price and timestamp and recompute the unrealized P&L. -/
def markPosition (position : Position) (current_price : ℚ)
    (timestamp : Int) : Position :=
  { position with
    current_price := current_price,
    current_timestamp := timestamp,
    unrealized_pnl :=
      if position.type = .long then
        (current_price - position.entry_price) * position.quantity
      else
        (position.entry_price - current_price) * position.quantity }

/-- The `stop_price` of lines 209–213. -/
def stopPriceOf (config : BacktestConfig) (position : Position) : ℚ :=
  if position.type = .long then
    position.entry_price * (1 - config.stop_loss.getD 0)
  else
    position.entry_price * (1 + config.stop_loss.getD 0)

/-- The `take_profit_price` of lines 225–229. -/
def takeProfitPriceOf (config : BacktestConfig) (position : Position) : ℚ :=
  if position.type = .long then
    position.entry_price * (1 + config.take_profit.getD 0)
  else
    position.entry_price * (1 - config.take_profit.getD 0)

/-- The `if config.stop_loss:` block (lines 208–222).  `position` is the
loop-local marked position object. -/
def stopLossCheck (config : BacktestConfig) (portfolio : Portfolio)
    (symbol : String) (position : Position) (current_price : ℚ)
    (timestamp : Int) : Except PyErr Portfolio :=
  if truthy config.stop_loss then
    if (position.type = .long ∧ current_price ≤ stopPriceOf config position) ∨
       (position.type = .short ∧ current_price ≥ stopPriceOf config position) then
      closePosition portfolio symbol current_price timestamp "stop_loss"
    else
      pure portfolio
  else
    pure portfolio

/-- The `if config.take_profit:` block (lines 224–238). -/
def takeProfitCheck (config : BacktestConfig) (portfolio : Portfolio)
    (symbol : String) (position : Position) (current_price : ℚ)
    (timestamp : Int) : Except PyErr Portfolio :=
  if truthy config.take_profit then
    if (position.type = .long ∧ current_price ≥ takeProfitPriceOf config position) ∨
       (position.type = .short ∧ current_price ≤ takeProfitPriceOf config position) then
      closePosition portfolio symbol current_price timestamp "take_profit"
    else
      pure portfolio
  else
    pure portfolio

/-- The body of the `for symbol, position in portfolio['positions'].items()`
loop of `_update_portfolio_state` (lines 186–238): mark the position to
market, accumulate its market value, then run the stop-loss check and the
take-profit check (both read the loop-local marked position object). -/
def updateStateStep (config : BacktestConfig) (data : DataMap)
    (timestamp : Int) (acc : Portfolio × ℚ) (entry : String × Position) :
    Except PyErr (Portfolio × ℚ) :=
  match lookupA data entry.1 with
  | none => .ok acc
  | some df =>
    match lookupF df timestamp with
    | none => .ok acc
    | some row =>
      let current_price := row.close
      let position := markPosition entry.2 current_price timestamp
      let portfolio :=
        { acc.1 with positions := updateA acc.1.positions entry.1 position }
      let positions_value := acc.2 + position.quantity * current_price
      do
        let portfolio ←
          stopLossCheck config portfolio entry.1 position current_price timestamp
        let portfolio ←
          takeProfitCheck config portfolio entry.1 position current_price timestamp
        return (portfolio, positions_value)

/-- The loop of `_update_portfolio_state`, iterating over the items the
positions mapping had when the loop started. -/
def updateStateGo (config : BacktestConfig) (data : DataMap) (timestamp : Int) :
    List (String × Position) → Portfolio → ℚ → Except PyErr (Portfolio × ℚ)
  | [], portfolio, positions_value => .ok (portfolio, positions_value)
  | entry :: rest, portfolio, positions_value => do
      let (p, pv) ← updateStateStep config data timestamp (portfolio, positions_value) entry
      updateStateGo config data timestamp rest p pv

/-- `BacktestService._update_portfolio_state` (lines 176–240): mark every
position with a bar at this timestamp, run the risk exits, then set
`portfolio['equity'] = portfolio['cash'] + positions_value`. -/
def updatePortfolioState (config : BacktestConfig) (data : DataMap)
    (timestamp : Int) (portfolio : Portfolio) : Except PyErr Portfolio := do
  let (p, positions_value) ←
    updateStateGo config data timestamp portfolio.positions portfolio 0
  return { p with equity := p.cash + positions_value }

/-- `BacktestService._update_equity_curve` (lines 482–498). -/
def updateEquityCurve (portfolio : Portfolio) (timestamp : Int) : Portfolio :=
  { portfolio with equity_curve := portfolio.equity_curve ++
      [{ timestamp := timestamp, equity := portfolio.equity,
         cash := portfolio.cash,
         positions_value := positionsValue portfolio.positions }] }

/-- The pandas slice `df[:timestamp]`: all rows at or before the label. -/
def truncFrame (df : Frame) (timestamp : Int) : Frame :=
  df.filter (fun r => r.1 ≤ timestamp)

/-- The indicator mapping built at lines 256–261 of `_generate_signals`.
`calcInd` stands for `technical_analysis_service.calculate_indicator`, which is
absent from the repository: following §4.1 of the spec it is an arbitrary
pure, total evaluator of the truncated frame and the configured parameters
(the results below hold for every such evaluator). -/
def indicatorsFor (calcInd : Frame → IndParams → IndValue)
    (strategy : StrategyConfig) (df : Frame) (timestamp : Int) :
    List (String × IndValue) :=
  strategy.indicators.map (fun ni => (ni.1, calcInd (truncFrame df timestamp) ni.2))

/-- One condition loop of `_generate_signals` (lines 264–274 and 277–287):
for the first condition that `_check_condition` accepts, the code builds a
`BacktestSignal` whose `direction`/`strength` arguments read the module
globals `TrendDirection` and `SignalStrength`; neither name is imported in
`app/services/backtest.py`, so the construction raises `NameError` and no
signal is ever appended. -/
def scanConditions (conds : List Condition)
    (indicators : List (String × IndValue)) (row : Bar) : Except PyErr Unit :=
  match conds with
  | [] => .ok ()
  | c :: rest =>
      if checkCondition c indicators row then .error .nameError
      else scanConditions rest indicators row

/-- The per-symbol loop of `_generate_signals` (lines 251–287). -/
def generateSignalsGo (calcInd : Frame → IndParams → IndValue)
    (strategy : StrategyConfig) (timestamp : Int) :
    DataMap → Except PyErr (List BacktestSignal)
  | [] => .ok []
  | (_, df) :: rest =>
      match lookupF df timestamp with
      | none => generateSignalsGo calcInd strategy timestamp rest
      | some row => do
          let indicators := indicatorsFor calcInd strategy df timestamp
          scanConditions strategy.entry_conditions indicators row
          scanConditions strategy.exit_conditions indicators row
          generateSignalsGo calcInd strategy timestamp rest

/-- `BacktestService._generate_signals` (lines 242–289). -/
def generateSignals (calcInd : Frame → IndParams → IndValue)
    (data : DataMap) (strategy : StrategyConfig) (timestamp : Int) :
    Except PyErr (List BacktestSignal) :=
  generateSignalsGo calcInd strategy timestamp data

/-- The `BacktestOrder(...)` constructor together with its pydantic
`validate_quantity` validator (`models/backtest.py` lines 50–54): a
non-positive quantity raises a validation error. -/
def mkOrderExc (id : Nat) (symbol : String) (type : OrderType)
    (side : OrderSide) (quantity : ℚ) (timestamp : Int) :
    Except PyErr BacktestOrder :=
  if quantity ≤ 0 then .error .valueError
  else .ok { id := id, symbol := symbol, type := type, side := side,
             quantity := quantity, timestamp := timestamp }

/-- The signal loop of `_process_signals` (lines 346–382).  In the entry
branch the code first computes `quantity = portfolio['equity'] *
config.position_size / signal.price` (a `ZeroDivisionError` when the signal
price is zero) and then builds the order, whose `side` argument evaluates the
unresolved module global `TrendDirection` — a `NameError` before any order
exists.  `config.enable_shorting` is read nowhere. -/
def processSignalsGo (config : BacktestConfig) (timestamp : Int) :
    List BacktestSignal → Portfolio → Nat → Except PyErr (Portfolio × Nat)
  | [], portfolio, nextId => .ok (portfolio, nextId)
  | signal :: rest, portfolio, nextId =>
    let symbol := signal.symbol
    let current_position := lookupA portfolio.positions symbol
    if current_position.isSome ∧ signal.type = "ENTRY" then
      processSignalsGo config timestamp rest portfolio nextId
    else if current_position.isNone ∧ signal.type = "EXIT" then
      processSignalsGo config timestamp rest portfolio nextId
    else if signal.type = "ENTRY" then
      if signal.price = 0 then .error .zeroDivisionError
      else .error .nameError
    else
      match current_position with
      | none => .error .attributeError
      | some position => do
          let order ← mkOrderExc nextId symbol .market
            (if position.type = .long then .sell else .buy)
            position.quantity timestamp
          processSignalsGo config timestamp rest
            { portfolio with orders := portfolio.orders ++ [order] } (nextId + 1)

/-- `BacktestService._process_signals` (lines 337–382). -/
def processSignals (signals : List BacktestSignal) (portfolio : Portfolio)
    (data : DataMap) (timestamp : Int) (config : BacktestConfig)
    (nextId : Nat) : Except PyErr (Portfolio × Nat) :=
  processSignalsGo config timestamp signals portfolio nextId

/-- The order loop of `_process_orders` (lines 392–480).  `done` is the
already-traversed prefix of the list (orders are mutated in place, so a
mid-loop exception leaves the mutations made so far in the portfolio, which
the error value carries). -/
def processOrdersGo (config : BacktestConfig) (data : DataMap)
    (timestamp : Int) :
    List BacktestOrder → List BacktestOrder → Portfolio →
    Except (PyErr × Portfolio) Portfolio
  | [], done, portfolio => .ok { portfolio with orders := done }
  | order :: rest, done, portfolio =>
    if order.status ≠ .pending then
      processOrdersGo config data timestamp rest (done ++ [order]) portfolio
    else
      match lookupA data order.symbol with
      | none => processOrdersGo config data timestamp rest (done ++ [order]) portfolio
      | some df =>
        match lookupF df timestamp with
        | none => processOrdersGo config data timestamp rest (done ++ [order]) portfolio
        | some row =>
          let current_price := row.close
          let fill_price := current_price *
            (if order.side = .buy then 1 + config.slippage_rate
             else 1 - config.slippage_rate)
          let commission := fill_price * order.quantity * config.commission_rate
          let order := { order with
            status := OrderStatus.filled,
            fill_price := some fill_price,
            fill_timestamp := some timestamp,
            commission := commission,
            slippage := |fill_price - current_price| * order.quantity }
          if order.side = .buy then
            let cost := fill_price * order.quantity + commission
            if cost > portfolio.cash then
              processOrdersGo config data timestamp rest
                (done ++ [{ order with status := OrderStatus.rejected }]) portfolio
            else
              let portfolio := { portfolio with cash := portfolio.cash - cost }
              match lookupA portfolio.positions order.symbol with
              | none =>
                  let portfolio := { portfolio with
                    positions := portfolio.positions ++
                      [(order.symbol,
                        { symbol := order.symbol, type := .long,
                          quantity := order.quantity, entry_price := fill_price,
                          entry_timestamp := timestamp,
                          current_price := fill_price,
                          current_timestamp := timestamp,
                          unrealized_pnl := 0,
                          commission_paid := commission })] }
                  processOrdersGo config data timestamp rest (done ++ [order]) portfolio
              | some position =>
                  let new_quantity := position.quantity + order.quantity
                  if new_quantity = 0 then
                    .error (.zeroDivisionError,
                            { portfolio with orders := done ++ order :: rest })
                  else
                    let position := { position with
                      entry_price := (position.entry_price * position.quantity +
                        fill_price * order.quantity) / new_quantity,
                      quantity := new_quantity,
                      commission_paid := position.commission_paid + commission }
                    processOrdersGo config data timestamp rest (done ++ [order])
                      { portfolio with
                        positions := updateA portfolio.positions order.symbol position }
          else
            let proceeds := fill_price * order.quantity - commission
            let portfolio := { portfolio with cash := portfolio.cash + proceeds }
            match lookupA portfolio.positions order.symbol with
            | none =>
                .error (.keyError, { portfolio with orders := done ++ order :: rest })
            | some position =>
                let realized_pnl :=
                  if position.type = .long then
                    (fill_price - position.entry_price) * order.quantity
                  else
                    (position.entry_price - fill_price) * order.quantity
                if order.quantity = position.quantity then
                  let portfolio := { portfolio with
                    trades := portfolio.trades ++
                      [{ symbol := order.symbol,
                         entry_price := position.entry_price,
                         entry_timestamp := position.entry_timestamp,
                         exit_price := fill_price, exit_timestamp := timestamp,
                         quantity := order.quantity, pnl := realized_pnl,
                         commission := position.commission_paid + commission,
                         type := position.type, reason := none }],
                    positions := eraseA portfolio.positions order.symbol }
                  processOrdersGo config data timestamp rest (done ++ [order]) portfolio
                else
                  let position := { position with
                    quantity := position.quantity - order.quantity,
                    realized_pnl := position.realized_pnl + realized_pnl,
                    commission_paid := position.commission_paid + commission }
                  processOrdersGo config data timestamp rest (done ++ [order])
                    { portfolio with
                      positions := updateA portfolio.positions order.symbol position }

/-- `BacktestService._process_orders` (lines 384–480). -/
def processOrders (portfolio : Portfolio) (data : DataMap) (timestamp : Int)
    (config : BacktestConfig) : Except (PyErr × Portfolio) Portfolio :=
  processOrdersGo config data timestamp portfolio.orders [] portfolio

/-- `BacktestService._initialize_portfolio` (lines 71–88). -/
def initializePortfolio (config : BacktestConfig) : Portfolio :=
  { cash := config.initial_capital,
    equity := config.initial_capital,
    positions := [],
    orders := [],
    trades := [],
    equity_curve := [{ timestamp := config.start_date,
                       equity := config.initial_capital,
                       cash := config.initial_capital,
                       positions_value := 0 }] }

/-- Insert a timestamp into an already sorted duplicate-free list, keeping it
sorted and duplicate-free. -/
def insertTs (t : Int) : List Int → List Int
  | [] => [t]
  | x :: xs =>
      if t < x then t :: x :: xs
      else if t = x then x :: xs
      else x :: insertTs t xs

/-- Every timestamp present in any symbol's frame, with multiplicity. -/
def allTimestampsList (data : DataMap) : List Int :=
  data.foldr (fun sd acc => (sd.2.map (fun r => r.1)) ++ acc) []

/-- `sorted(set().union(*[df.index for df in data.values()]))`
(line 127 of `_run_simulation`). -/
def sortedTimestamps (data : DataMap) : List Int :=
  (allTimestampsList data).foldr insertTs []

/-- One iteration of the timestamp loop of `_run_simulation`
(lines 129–166): risk exits and mark-to-market, then signals, then orders,
then the equity-curve append.  The `Nat` component counts the `uuid4()`
draws made so far. -/
def simStep (calcInd : Frame → IndParams → IndValue)
    (strategy : StrategyConfig) (config : BacktestConfig) (data : DataMap)
    (timestamp : Int) (state : Portfolio × Nat) :
    Except PyErr (Portfolio × Nat) := do
  let (portfolio, nextId) := state
  let portfolio ← updatePortfolioState config data timestamp portfolio
  let signals ← generateSignals calcInd data strategy timestamp
  let (portfolio, nextId) ←
    processSignals signals portfolio data timestamp config nextId
  let portfolio ←
    match processOrders portfolio data timestamp config with
    | .ok p => pure p
    | .error (e, _) => throw e
  return (updateEquityCurve portfolio timestamp, nextId)

/-- The timestamp loop of `_run_simulation`. -/
def runSimulationGo (calcInd : Frame → IndParams → IndValue)
    (strategy : StrategyConfig) (config : BacktestConfig) (data : DataMap) :
    List Int → Portfolio × Nat → Except PyErr (Portfolio × Nat)
  | [], state => .ok state
  | t :: ts, state => do
      let state ← simStep calcInd strategy config data t state
      runSimulationGo calcInd strategy config data ts state

/-- Arithmetic mean of a list (`np.mean` / `Series.mean`), used only on
non-empty lists. -/
def listMean (l : List ℚ) : ℚ := l.sum / l.length

/-- Maximum of a list (`max` / `Series.max`), used only on non-empty lists. -/
def listMaxQ (l : List ℚ) : ℚ := l.foldl max (l.headD 0)

/-- Minimum of a list (`min`), used only on non-empty lists. -/
def listMinQ (l : List ℚ) : ℚ := l.foldl min (l.headD 0)

/-- Sample variance with one delta degree of freedom (the radicand of
`Series.std()`), used only on lists of length at least two. -/
def sampleVar (l : List ℚ) : ℚ :=
  (l.map (fun x => (x - listMean l) ^ 2)).sum / ((l.length : ℚ) - 1)

/-- Tail of `Series.pct_change().dropna()`: successive relative changes. -/
def pctChangeGo (prev : ℚ) : List ℚ → List ℚ
  | [] => []
  | y :: ys => (y - prev) / prev :: pctChangeGo y ys

/-- `Series.pct_change().dropna()`. -/
def pctChange : List ℚ → List ℚ
  | [] => []
  | x :: xs => pctChangeGo x xs

/-- The running-maximum drawdown series
`(equity.cummax() - equity) / equity.cummax()`. -/
def drawdownGo (runMax : ℚ) : List ℚ → List ℚ
  | [] => []
  | x :: xs =>
      let m := max runMax x
      (m - x) / m :: drawdownGo m xs

/-- The values of the `metrics` dict of `_calculate_metrics`
(lines 508–536).  `sqrtF` and `powF` stand for the floating-point `np.sqrt`
and `**`, whose values are irrational in general; they are arbitrary fixed
functions, which is all the claims need. -/
structure MetricsVals where
  total_return : ℚ
  annualized_return : ℚ
  sharpe_ratio : ℚ
  sortino_ratio : ℚ
  max_drawdown : ℚ
  win_rate : ℚ
  deriving DecidableEq, Repr

/-- `BacktestService._calculate_metrics` (lines 500–536): `{}` (here `none`)
when there are no trades; otherwise the six keyed values.  An equity series
of length one makes `252 / len(returns)` raise `ZeroDivisionError`. -/
def calculateMetrics (sqrtF : ℚ → ℚ) (powF : ℚ → ℚ → ℚ)
    (portfolio : Portfolio) : Except PyErr (Option MetricsVals) :=
  if portfolio.trades = [] then .ok none
  else
    let equity := portfolio.equity_curve.map (fun p => p.equity)
    let returns := pctChange equity
    match equity with
    | [] => .error .indexError
    | e0 :: _ =>
      let elast := equity.getLastD 0
      if returns.length = 0 then .error .zeroDivisionError
      else
        let total_return := elast / e0 - 1
        let annualized_return :=
          powF (1 + (elast / e0 - 1)) (252 / (returns.length : ℚ)) - 1
        let sharpe_ratio :=
          if returns.length > 1 then
            sqrtF 252 * listMean returns / sqrtF (sampleVar returns)
          else 0
        let negs := returns.filter (fun r => r < 0)
        let sortino_ratio :=
          if negs.length > 1 then
            sqrtF 252 * listMean returns / sqrtF (sampleVar negs)
          else 0
        let max_drawdown := listMaxQ (drawdownGo e0 equity)
        let win_rate :=
          ((portfolio.trades.filter (fun t => t.pnl > 0)).length : ℚ) /
            (portfolio.trades.length : ℚ)
        .ok (some { total_return := total_return,
                    annualized_return := annualized_return,
                    sharpe_ratio := sharpe_ratio,
                    sortino_ratio := sortino_ratio,
                    max_drawdown := max_drawdown,
                    win_rate := win_rate })

/-- The `results` dict returned by `_run_simulation` (lines 168–174). -/
structure SimResults where
  equity_curve : List EquityPoint
  trades : List Trade
  positions : List Position
  orders : List BacktestOrder
  metrics : Option MetricsVals
  deriving DecidableEq, Repr

/-- `BacktestService._run_simulation` (lines 118–174), returning also the
number of `uuid4()` draws made. -/
def runSimulation (sqrtF : ℚ → ℚ) (powF : ℚ → ℚ → ℚ)
    (calcInd : Frame → IndParams → IndValue) (data : DataMap)
    (strategy : StrategyConfig) (portfolio : Portfolio)
    (config : BacktestConfig) : Except PyErr (SimResults × Nat) := do
  let (p, n) ←
    runSimulationGo calcInd strategy config data (sortedTimestamps data)
      (portfolio, 0)
  let metrics ← calculateMetrics sqrtF powF p
  return ({ equity_curve := p.equity_curve,
            trades := p.trades,
            positions := p.positions.map (fun sp => sp.2),
            orders := p.orders,
            metrics := metrics }, n)

/-- `app.models.backtest.TradeStats` (all-default values for a run with no
trades).  `profit_factor` lives in `WithTop ℚ`, whose `⊤` stands for the
Python `float('inf')`. -/
structure TradeStats where
  total_trades : Nat := 0
  winning_trades : Nat := 0
  losing_trades : Nat := 0
  win_rate : ℚ := 0
  avg_win : ℚ := 0
  avg_loss : ℚ := 0
  largest_win : ℚ := 0
  largest_loss : ℚ := 0
  profit_factor : WithTop ℚ := 0
  sharpe_ratio : ℚ := 0
  sortino_ratio : ℚ := 0
  max_drawdown : ℚ := 0
  max_drawdown_duration : Nat := 0
  total_pnl : ℚ := 0
  total_commission : ℚ := 0
  total_slippage : ℚ := 0
  deriving DecidableEq, Repr

/-- The `profit_factor=` argument of `_calculate_stats` (lines 559–563):
`float('inf')` (`⊤`) when there is no losing trade, otherwise gross winning
P&L over the absolute gross losing P&L — a `ZeroDivisionError` when the
denominator is zero. -/
def profitFactorExc (trades : List Trade) : Except PyErr (WithTop ℚ) :=
  if trades.filter (fun t => t.pnl ≤ 0) = [] then .ok (⊤ : WithTop ℚ)
  else if |((trades.filter (fun t => t.pnl ≤ 0)).map (fun t => t.pnl)).sum| = 0 then
    .error .zeroDivisionError
  else
    .ok ((((trades.filter (fun t => t.pnl > 0)).map (fun t => t.pnl)).sum /
      |((trades.filter (fun t => t.pnl ≤ 0)).map (fun t => t.pnl)).sum| : ℚ) :
      WithTop ℚ)

/-- The `TradeStats(...)` literal of `_calculate_stats` (lines 550–573),
as a function of the evaluated profit factor. -/
def statsOf (results : SimResults) (profit_factor : WithTop ℚ) : TradeStats :=
  { total_trades := results.trades.length,
    winning_trades := (results.trades.filter (fun t => t.pnl > 0)).length,
    losing_trades := (results.trades.filter (fun t => t.pnl ≤ 0)).length,
    win_rate := ((results.trades.filter (fun t => t.pnl > 0)).length : ℚ) /
      (results.trades.length : ℚ),
    avg_win := if results.trades.filter (fun t => t.pnl > 0) = [] then 0
               else listMean ((results.trades.filter (fun t => t.pnl > 0)).map
                 (fun t => t.pnl)),
    avg_loss := if results.trades.filter (fun t => t.pnl ≤ 0) = [] then 0
                else listMean ((results.trades.filter (fun t => t.pnl ≤ 0)).map
                  (fun t => t.pnl)),
    largest_win := if results.trades.filter (fun t => t.pnl > 0) = [] then 0
                   else listMaxQ ((results.trades.filter (fun t => t.pnl > 0)).map
                     (fun t => t.pnl)),
    largest_loss := if results.trades.filter (fun t => t.pnl ≤ 0) = [] then 0
                    else listMinQ ((results.trades.filter (fun t => t.pnl ≤ 0)).map
                      (fun t => t.pnl)),
    profit_factor := profit_factor,
    sharpe_ratio := match results.metrics with
                    | some m => m.sharpe_ratio
                    | none => 0,
    sortino_ratio := match results.metrics with
                     | some m => m.sortino_ratio
                     | none => 0,
    max_drawdown := match results.metrics with
                    | some m => m.max_drawdown
                    | none => 0,
    max_drawdown_duration := 0,
    total_pnl := (results.trades.map (fun t => t.pnl)).sum,
    total_commission := (results.trades.map (fun t => t.commission)).sum,
    total_slippage :=
      ((results.orders.filter (fun o => o.status = .filled)).map
        (fun o => o.slippage)).sum }

/-- `BacktestService._calculate_stats` (lines 538–573).  With at least one
losing trade the profit factor divides by `abs(sum(losing pnl))`, which
raises `ZeroDivisionError` when that sum is zero. -/
def calculateStats (results : SimResults) : Except PyErr TradeStats :=
  if results.trades = [] then .ok {}
  else (profitFactorExc results.trades).map (statsOf results)

/-- `app.models.backtest.BacktestResult`.  `id` and `created_at` are drawn
from the run's uuid stream and clock at construction time. -/
structure BacktestResult where
  id : Nat
  config : BacktestConfig
  stats : TradeStats
  equity_curve : List EquityPoint
  trades : List Trade
  positions : List Position
  orders : List BacktestOrder
  metrics : Option MetricsVals
  created_at : Int
  deriving DecidableEq, Repr

/-- `BacktestService.run_backtest` (lines 32–69) from the point where the
historical data is in hand (the data-fetch stage `_get_historical_data` is
`getHistoricalData` below): initialize the portfolio, simulate, compute the
stats and assemble the `BacktestResult`.  `uuids k` is the value the k-th
`uuid4()` call of the run returns and `now` is `datetime.utcnow()` at
result-construction time; the `try/except` of the source re-raises, so
errors propagate unchanged. -/
def runBacktest (sqrtF : ℚ → ℚ) (powF : ℚ → ℚ → ℚ)
    (calcInd : Frame → IndParams → IndValue) (uuids : Nat → Nat) (now : Int)
    (strategy : StrategyConfig) (config : BacktestConfig) (data : DataMap) :
    Except PyErr BacktestResult := do
  let portfolio := initializePortfolio config
  let (results, n) ←
    runSimulation sqrtF powF calcInd data strategy portfolio config
  let stats ← calculateStats results
  return { id := uuids n,
           config := config,
           stats := stats,
           equity_curve := results.equity_curve,
           trades := results.trades,
           positions := results.positions,
           orders := results.orders.map (fun o => { o with id := uuids o.id }),
           metrics := results.metrics,
           created_at := now }

/-- The per-symbol loop of `BacktestService._get_historical_data`
(lines 90–116).  A cache hit (a non-empty cached payload) becomes the
symbol's frame.  On a cache miss the code calls
`market_data_service.get_historical_data(symbol=…, timeframe=…,
start_date=…, end_date=…)`; that method's signature
(`app/services/market_data.py` line 144) accepts no `start_date` or
`end_date` keyword, so the call itself raises `TypeError`.  No per-symbol
exception handler exists, so the first such miss aborts the whole fetch. -/
def getHistoricalDataGo (cache : String → Option Frame) :
    List String → Except PyErr DataMap
  | [] => .ok []
  | s :: rest =>
      match cache s with
      | some df => do
          let restData ← getHistoricalDataGo cache rest
          return (s, df) :: restData
      | none => .error .typeError

/-- `BacktestService._get_historical_data` (lines 90–116). -/
def getHistoricalData (cache : String → Option Frame)
    (config : BacktestConfig) : Except PyErr DataMap :=
  getHistoricalDataGo cache config.symbols

/-- `BacktestService.run_backtest` including the data-fetch stage. -/
def runBacktestFetch (sqrtF : ℚ → ℚ) (powF : ℚ → ℚ → ℚ)
    (calcInd : Frame → IndParams → IndValue) (uuids : Nat → Nat) (now : Int)
    (cache : String → Option Frame) (strategy : StrategyConfig)
    (config : BacktestConfig) : Except PyErr BacktestResult := do
  let data ← getHistoricalData cache config
  runBacktest sqrtF powF calcInd uuids now strategy config data

/-- The mark-to-market value the state update accumulates: for every position
with a bar at the timestamp, its quantity times that bar's close. -/
def markedValue (data : DataMap) (timestamp : Int)
    (positions : List (String × Position)) : ℚ :=
  (positions.map (fun sp =>
    match lookupA data sp.1 with
    | none => 0
    | some df =>
        match lookupF df timestamp with
        | none => 0
        | some row => sp.2.quantity * row.close)).sum

/-- Erase the freshly drawn identifier of an order. -/
def stripOrderId (o : BacktestOrder) : BacktestOrder := { o with id := 0 }

/-- Erase everything a `BacktestResult` owes to `uuid4()`/`utcnow()` draws:
the result id, the creation time, and the per-order ids. -/
def stripResult (r : BacktestResult) : BacktestResult :=
  { r with id := 0, created_at := 0, orders := r.orders.map stripOrderId }

/-- A bar with every field 100, for concrete instantiations. -/
def bar100 : Bar := { open_ := 100, high := 100, low := 100, close := 100, volume := 0 }

/-- `bar100` with another close. -/
def barAt (c : ℚ) : Bar := { bar100 with close := c }

/-- A strategy with no indicators and no conditions. -/
def stratEmpty : StrategyConfig :=
  { indicators := [], entry_conditions := [], exit_conditions := [] }

/-- A small concrete run configuration. -/
def cfgW : BacktestConfig :=
  { start_date := 0, end_date := 10, initial_capital := 1000,
    symbols := ["A"], timeframe := "1d" }

/-- Two bars of flat prices for symbol `A`. -/
def dataW : DataMap := [("A", [(1, bar100), (2, bar100)])]

/-- The result of the `cfgW`/`dataW`/`stratEmpty` run. -/
def resW : BacktestResult :=
  { id := 0, config := cfgW, stats := {},
    equity_curve :=
      [{ timestamp := 0, equity := 1000, cash := 1000, positions_value := 0 },
       { timestamp := 1, equity := 1000, cash := 1000, positions_value := 0 },
       { timestamp := 2, equity := 1000, cash := 1000, positions_value := 0 }],
    trades := [], positions := [], orders := [], metrics := none,
    created_at := 5 }

/-- A pending one-share market buy order for symbol `A`. -/
def ordW : BacktestOrder :=
  { id := 0, symbol := "A", type := .market, side := .buy, quantity := 1,
    timestamp := 1 }

/-- A portfolio with half a unit of cash and `ordW` pending. -/
def pPoor : Portfolio :=
  { cash := 1/2, equity := 1/2, positions := [], orders := [ordW],
    trades := [], equity_curve := [] }

/-- A portfolio with ample cash and `ordW` pending. -/
def pRich : Portfolio :=
  { cash := 1000, equity := 1000, positions := [], orders := [ordW],
    trades := [], equity_curve := [] }

/-- A bearish entry signal for symbol `A` (its condition's side was not
`'buy'`). -/
def sigB : BacktestSignal :=
  { symbol := "A", timestamp := 1, type := "ENTRY", direction := .bearish,
    strength := .strong, price := 100 }

/-- An empty portfolio with no open position. -/
def pEmpty : Portfolio :=
  { cash := 1000, equity := 1000, positions := [], orders := [],
    trades := [], equity_curve := [] }

/-- A pending one-share market sell order for symbol `A`. -/
def ordSell : BacktestOrder :=
  { id := 0, symbol := "A", type := .market, side := .sell, quantity := 1,
    timestamp := 1 }

/-- A portfolio holding no position but a pending sell order. -/
def pSell : Portfolio :=
  { cash := 1000, equity := 1000, positions := [], orders := [ordSell],
    trades := [], equity_curve := [] }

/-- A closed long trade on `A` with the given P&L. -/
def trW (p : ℚ) : Trade :=
  { symbol := "A", entry_price := 100, entry_timestamp := 0, exit_price := 100,
    exit_timestamp := 1, quantity := 1, pnl := p, commission := 0, type := .long }

/-- Simulation results with one winning and one zero-P&L trade. -/
def resPF : SimResults :=
  { equity_curve := [], trades := [trW 1, trW 0], positions := [], orders := [],
    metrics := none }

/-- Simulation results with a single winning trade. -/
def resWin : SimResults :=
  { equity_curve := [], trades := [trW 1], positions := [], orders := [],
    metrics := none }

/-- Simulation results with no trades. -/
def resNone : SimResults :=
  { equity_curve := [], trades := [], positions := [], orders := [],
    metrics := none }

/-- A cache holding data for symbol `A` only. -/
def cacheW : String → Option Frame :=
  fun s => if s = "A" then some [(1, bar100)] else none

/-- `cfgW` with a second symbol `B` configured. -/
def cfg2 : BacktestConfig := { cfgW with symbols := ["A", "B"] }

/-- The result of the empty-data run under the identity uuid stream and
clock `0`. -/
def resA : BacktestResult :=
  { id := 0, config := cfgW, stats := {},
    equity_curve := (initializePortfolio cfgW).equity_curve,
    trades := [], positions := [], orders := [], metrics := none,
    created_at := 0 }

/-- The result of the same run under a shifted uuid stream and clock `1`. -/
def resB : BacktestResult := { resA with id := 1, created_at := 1 }

/-- The state after one `simStep` on `pRich` at timestamp 1 (the pending
buy fills at `100.01`). -/
def sC3 : Portfolio :=
  { cash := 89988999/100000, equity := 1000,
    positions := [("A",
      { symbol := "A", type := .long, quantity := 1, entry_price := 10001/100,
        entry_timestamp := 1, current_price := 10001/100, current_timestamp := 1,
        unrealized_pnl := 0, realized_pnl := 0, commission_paid := 10001/100000 })],
    orders :=
      [{ id := 0, symbol := "A", type := .market, side := .buy,
         quantity := 1, price := none, stop_price := none, timestamp := 1,
         status := .filled, fill_price := some (10001/100),
         fill_timestamp := some 1, commission := 10001/100000,
         slippage := 1/100 }],
    trades := [],
    equity_curve :=
      [{ timestamp := 1, equity := 1000, cash := 89988999/100000,
         positions_value := 10001/100 }] }

/-- The Trade the spec-modelled forced close books for position `pos` closed
at price `price` and time `t` with the given reason (used to state the
risk-exit theorems). -/
def forcedCloseTrade (sym : String) (pos : Position) (price : ℚ) (t : Int)
    (reason : String) : Trade :=
  { symbol := sym, entry_price := pos.entry_price,
    entry_timestamp := pos.entry_timestamp, exit_price := price,
    exit_timestamp := t, quantity := pos.quantity,
    pnl := if pos.type = PositionType.long then
             (price - pos.entry_price) * pos.quantity
           else (pos.entry_price - price) * pos.quantity,
    commission := pos.commission_paid, type := pos.type,
    reason := some reason }

/-- `cfgW` with a 2% stop-loss. -/
def cfgC1 : BacktestConfig := { cfgW with stop_loss := some (1/50) }

/-- A long position in `"A"` entered at 100. -/
def posC1 : Position :=
  { symbol := "A", type := .long, quantity := 1, entry_price := 100,
    entry_timestamp := 0, current_price := 100, current_timestamp := 0,
    unrealized_pnl := 0 }

/-- A portfolio holding only `posC1`. -/
def pC1 : Portfolio :=
  { cash := 0, equity := 100, positions := [("A", posC1)], orders := [],
    trades := [], equity_curve := [] }

/-- One bar at close 97 for symbol `"A"` at timestamp 1. -/
def dataC1 : DataMap := [("A", [(1, barAt 97)])]

/-- An entry condition `rsi > 3`. -/
def condC2 : Condition :=
  { indicator := some "rsi", operator := some ">", value := some (.num 3) }

/-- A strategy with one configured indicator and one entry condition that the
constant evaluator `fun _ _ => .num 5` satisfies. -/
def stratC2 : StrategyConfig :=
  { indicators := [("rsi", [])], entry_conditions := [condC2],
    exit_conditions := [] }

/-!
## Lemmas and claim theorems
-/

@[simp] theorem lookupA_nil {α : Type} (k : String) :
    lookupA ([] : List (String × α)) k = none := rfl

@[simp] theorem lookupA_cons {α : Type} (k' k : String) (v : α) (rest) :
    lookupA ((k', v) :: rest) k =
      if k' = k then some v else lookupA rest k := rfl

@[simp] theorem updateA_nil {α : Type} (k : String) (v : α) :
    updateA ([] : List (String × α)) k v = [] := rfl

@[simp] theorem updateA_cons {α : Type} (k' k : String) (v' v : α) (rest) :
    updateA ((k', v') :: rest) k v =
      if k' = k then (k', v) :: rest else (k', v') :: updateA rest k v := rfl

@[simp] theorem eraseA_nil {α : Type} (k : String) :
    eraseA ([] : List (String × α)) k = [] := rfl

@[simp] theorem eraseA_cons {α : Type} (k' k : String) (v' : α) (rest) :
    eraseA ((k', v') :: rest) k =
      if k' = k then rest else (k', v') :: eraseA rest k := rfl

@[simp] theorem getKey_some {α : Type} (v : α) : getKey (some v) = .ok v := rfl

@[simp] theorem getKey_none {α : Type} :
    getKey (none : Option α) = (.error .keyError : Except PyErr α) := rfl

@[simp] theorem lookupF_nil (timestamp : Int) : lookupF [] timestamp = none := rfl

@[simp] theorem lookupF_cons (t timestamp : Int) (row : Bar)
    (rest : List (Int × Bar)) :
    lookupF ((t, row) :: rest) timestamp =
      if t = timestamp then some row else lookupF rest timestamp := rfl

@[simp] theorem except_bind_ok {α β : Type} (a : α) (f : α → Except PyErr β) :
    (Except.ok a : Except PyErr α) >>= f = f a := rfl

@[simp] theorem except_bind_error {α β : Type} (e : PyErr)
    (f : α → Except PyErr β) :
    (Except.error e : Except PyErr α) >>= f = .error e := rfl

@[simp] theorem except_pure_eq {α : Type} (a : α) :
    (pure a : Except PyErr α) = .ok a := rfl

theorem checkCondition_of_exc_error (c : Condition)
    (m : List (String × IndValue)) (b : Bar) (e : PyErr)
    (h : checkConditionExc c m b = .error e) : checkCondition c m b = false := by
  unfold checkCondition
  rw [h]

set_option maxHeartbeats 1000000 in
/-- C8: for every condition dictionary, indicator mapping and current bar,
`_check_condition` returns a boolean and never raises: the `try/except`
(embedded as the total function `checkCondition` over the explicit-exception
body `checkConditionExc`) maps every failure of the body to `false`, and in
particular a missing `'indicator'` key, an indicator name absent from the
mapping, an unsupported operator, a missing crossover-series key or series,
and an out-of-range series index all yield `false` rather than an error. -/
theorem c8_check_condition_silent_failures (c : Condition)
    (m : List (String × IndValue)) (b : Bar) :
    (∀ e, checkConditionExc c m b = .error e → checkCondition c m b = false)
    ∧ (c.indicator = none → checkCondition c m b = false)
    ∧ (∀ s, c.indicator = some s → lookupA m s = none →
        checkCondition c m b = false)
    ∧ (∀ op, c.operator = some op →
        op ∉ ([">", "<", ">=", "<=", "==", "cross_above", "cross_below"] :
          List String) →
        checkCondition c m b = false)
    ∧ ((c.operator = some "cross_above" ∨ c.operator = some "cross_below") →
        c.indicator1 = none → checkCondition c m b = false)
    ∧ (∀ s1, (c.operator = some "cross_above" ∨ c.operator = some "cross_below") →
        c.indicator1 = some s1 → lookupA m s1 = none →
        checkCondition c m b = false)
    ∧ (∀ s1 l, (c.operator = some "cross_above" ∨ c.operator = some "cross_below") →
        c.indicator1 = some s1 → lookupA m s1 = some (.series l) → l.length < 2 →
        checkCondition c m b = false) := by
  refine ⟨fun e h => checkCondition_of_exc_error c m b e h, ?_, ?_, ?_, ?_, ?_, ?_⟩
  · intro h
    unfold checkCondition checkConditionExc
    simp [h]
  · intro s h h2
    unfold checkCondition checkConditionExc
    simp [h, h2]
  · intro op hop hn
    simp only [List.mem_cons, List.mem_singleton, not_or] at hn
    obtain ⟨h1, h2, h3, h4, h5, h6, h7⟩ := hn
    unfold checkCondition checkConditionExc
    rcases hi : c.indicator with _ | s
    · simp [hi]
    · rcases hl : lookupA m s with _ | ind
      · simp [hi, hl]
      · rcases hv : c.value with _ | v
        · simp [hi, hl, hop, hv]
        · simp [hi, hl, hop, hv, h1, h2, h3, h4, h5, h6, h7]
  · intro hop h1
    unfold checkCondition checkConditionExc
    rcases hi : c.indicator with _ | s
    · simp [hi]
    · rcases hl : lookupA m s with _ | ind
      · simp [hi, hl]
      · rcases hv : c.value with _ | v
        · rcases hop with hop | hop <;> simp [hi, hl, hop, hv]
        · rcases hop with hop | hop <;> simp [hi, hl, hop, hv, h1]
  · intro s1 hop h1 hl1
    unfold checkCondition checkConditionExc
    rcases hi : c.indicator with _ | s
    · simp [hi]
    · rcases hl : lookupA m s with _ | ind
      · simp [hi, hl]
      · rcases hv : c.value with _ | v
        · rcases hop with hop | hop <;> simp [hi, hl, hop, hv]
        · rcases hop with hop | hop <;> simp [hi, hl, hop, hv, h1, hl1]
  · intro s1 l hop h1 hl1 hlen
    have h2 : ¬ 2 ≤ l.length := by omega
    unfold checkCondition checkConditionExc
    rcases hi : c.indicator with _ | s
    · simp [hi]
    · rcases hl : lookupA m s with _ | ind
      · simp [hi, hl]
      · rcases hv : c.value with _ | v
        · rcases hop with hop | hop <;> simp [hi, hl, hop, hv]
        · rcases hop with hop | hop <;>
            simp [hi, hl, hop, hv, h1, hl1, pyNegIdx, h2]

/-- A condition with no `'indicator'` key. -/
def condNoKey : Condition := { operator := some ">" }

/-- A condition with an unsupported operator. -/
def condBadOp : Condition :=
  { indicator := some "rsi", operator := some "wat", value := some (.num 1) }

/-- A crossover condition whose first series has a single element. -/
def condShortSeries : Condition :=
  { indicator := some "rsi", operator := some "cross_above",
    value := some (.num 1), indicator1 := some "a", indicator2 := some "b" }

/-- Witness for C8: concrete misconfigured conditions evaluate to `false`. -/
theorem c8_check_condition_silent_failures_witness :
    checkCondition condNoKey [] bar100 = false
    ∧ checkCondition condBadOp [("rsi", .num 5)] bar100 = false
    ∧ checkCondition condShortSeries [("rsi", .num 5), ("a", .series [1])] bar100 = false := by
  refine ⟨?_, ?_, ?_⟩
  · exact (c8_check_condition_silent_failures _ _ _).2.1 rfl
  · exact (c8_check_condition_silent_failures _ _ _).2.2.2.1 "wat" rfl (by decide)
  · exact (c8_check_condition_silent_failures _ _ _).2.2.2.2.2.2 "a" [1]
      (Or.inl rfl) rfl (by decide) (by decide)

theorem closePosition_invariants (p : Portfolio) (sym : String) (price : ℚ)
    (t : Int) (reason : String) (p' : Portfolio)
    (h : closePosition p sym price t reason = .ok p') :
    p'.orders = p.orders ∧ p'.equity_curve = p.equity_curve ∧ p'.equity = p.equity ∧
      p'.positions = eraseA p.positions sym := by
  unfold closePosition at h
  rcases hl : lookupA p.positions sym with _ | pos <;> rw [hl] at h
  · simp at h
  · simp only [Except.ok.injEq] at h
    rw [← h]
    exact ⟨rfl, rfl, rfl, rfl⟩

theorem stopLossCheck_invariants (config : BacktestConfig) (p : Portfolio)
    (sym : String) (position : Position) (cp : ℚ) (t : Int) (p' : Portfolio)
    (h : stopLossCheck config p sym position cp t = .ok p') :
    p'.orders = p.orders ∧ p'.equity_curve = p.equity_curve ∧ p'.equity = p.equity := by
  unfold stopLossCheck at h
  split at h
  · split at h
    · have := closePosition_invariants _ _ _ _ _ _ h
      exact ⟨this.1, this.2.1, this.2.2.1⟩
    · simp only [pure, Except.pure, Except.ok.injEq] at h
      rw [← h]; exact ⟨rfl, rfl, rfl⟩
  · simp only [pure, Except.pure, Except.ok.injEq] at h
    rw [← h]; exact ⟨rfl, rfl, rfl⟩

theorem takeProfitCheck_invariants (config : BacktestConfig) (p : Portfolio)
    (sym : String) (position : Position) (cp : ℚ) (t : Int) (p' : Portfolio)
    (h : takeProfitCheck config p sym position cp t = .ok p') :
    p'.orders = p.orders ∧ p'.equity_curve = p.equity_curve ∧ p'.equity = p.equity := by
  unfold takeProfitCheck at h
  split at h
  · split at h
    · have := closePosition_invariants _ _ _ _ _ _ h
      exact ⟨this.1, this.2.1, this.2.2.1⟩
    · simp only [pure, Except.pure, Except.ok.injEq] at h
      rw [← h]; exact ⟨rfl, rfl, rfl⟩
  · simp only [pure, Except.pure, Except.ok.injEq] at h
    rw [← h]; exact ⟨rfl, rfl, rfl⟩

theorem updateStateStep_invariants (config : BacktestConfig) (data : DataMap)
    (timestamp : Int) (acc : Portfolio × ℚ) (entry : String × Position)
    (out : Portfolio × ℚ)
    (h : updateStateStep config data timestamp acc entry = .ok out) :
    out.1.orders = acc.1.orders ∧ out.1.equity_curve = acc.1.equity_curve ∧
      out.1.equity = acc.1.equity := by
  unfold updateStateStep at h
  split at h
  · simp only [Except.ok.injEq] at h; rw [← h]; exact ⟨rfl, rfl, rfl⟩
  · split at h
    · simp only [Except.ok.injEq] at h; rw [← h]; exact ⟨rfl, rfl, rfl⟩
    · rename_i df hdf row hrow
      simp only [bind, Except.bind] at h
      rcases h1 : stopLossCheck config
          { acc.1 with positions := updateA acc.1.positions entry.1 (markPosition entry.2 row.close timestamp) }
          entry.1 (markPosition entry.2 row.close timestamp) row.close timestamp with e | p1 <;>
        rw [h1] at h <;> dsimp only at h
      · simp at h
      · rcases h2 : takeProfitCheck config p1 entry.1 (markPosition entry.2 row.close timestamp) row.close timestamp with e | p2 <;>
          rw [h2] at h <;> dsimp only at h
        · simp at h
        · simp only [pure, Except.pure, Except.ok.injEq] at h
          have i1 := stopLossCheck_invariants _ _ _ _ _ _ _ h1
          have i2 := takeProfitCheck_invariants _ _ _ _ _ _ _ h2
          rw [← h]
          exact ⟨by simp [i2.1, i1.1], by simp [i2.2.1, i1.2.1], by simp [i2.2.2, i1.2.2]⟩

theorem updateStateGo_invariants (config : BacktestConfig) (data : DataMap)
    (timestamp : Int) :
    ∀ (entries : List (String × Position)) (p : Portfolio) (pv : ℚ)
      (p' : Portfolio) (pv' : ℚ),
      updateStateGo config data timestamp entries p pv = .ok (p', pv') →
      p'.orders = p.orders ∧ p'.equity_curve = p.equity_curve ∧
        p'.equity = p.equity := by
  intro entries
  induction entries with
  | nil =>
      intro p pv p' pv' h
      simp only [updateStateGo, Except.ok.injEq, Prod.mk.injEq] at h
      rw [← h.1]; exact ⟨rfl, rfl, rfl⟩
  | cons e rest ih =>
      intro p pv p' pv' h
      rw [updateStateGo] at h
      simp only [bind, Except.bind] at h
      rcases hs : updateStateStep config data timestamp (p, pv) e with er | out <;>
        rw [hs] at h <;> dsimp only at h
      · simp at h
      · obtain ⟨om, vm⟩ := out
        obtain ⟨o1, c1, e1⟩ := updateStateStep_invariants _ _ _ _ _ _ hs
        obtain ⟨o2, c2, e2⟩ := ih om vm p' pv' h
        exact ⟨o2.trans o1, c2.trans c1, e2.trans e1⟩

theorem updatePortfolioState_invariants (config : BacktestConfig)
    (data : DataMap) (timestamp : Int) (p p' : Portfolio)
    (h : updatePortfolioState config data timestamp p = .ok p') :
    p'.orders = p.orders ∧ p'.equity_curve = p.equity_curve := by
  unfold updatePortfolioState at h
  simp only [bind, Except.bind] at h
  rcases hs : updateStateGo config data timestamp p.positions p 0 with er | out <;>
    rw [hs] at h <;> dsimp only at h
  · simp at h
  · obtain ⟨om, vm⟩ := out
    obtain ⟨o1, c1, e1⟩ := updateStateGo_invariants _ _ _ _ _ _ _ _ hs
    simp only [pure, Except.pure, Except.ok.injEq] at h
    rw [← h]
    exact ⟨o1, c1⟩

theorem processSignalsGo_invariants (config : BacktestConfig) (timestamp : Int) :
    ∀ (signals : List BacktestSignal) (p : Portfolio) (n : Nat) (p' : Portfolio) (n' : Nat),
      processSignalsGo config timestamp signals p n = .ok (p', n') →
      ∃ os, p' = { p with orders := p.orders ++ os } := by
  intro signals
  induction signals with
  | nil =>
      intro p n p' n' h
      simp [processSignalsGo] at h
      exact ⟨[], by simp [h.1.symm]⟩
  | cons s rest ih =>
      intro p n p' n' h
      rw [processSignalsGo] at h
      split at h
      · obtain ⟨os, ho⟩ := ih _ _ _ _ h
        exact ⟨os, ho⟩
      · split at h
        · obtain ⟨os, ho⟩ := ih _ _ _ _ h
          exact ⟨os, ho⟩
        · split at h
          · split at h <;> simp at h
          · split at h
            · simp at h
            · rename_i position hpos
              rcases hmk : mkOrderExc n s.symbol .market
                  (if position.type = .long then .sell else .buy) position.quantity timestamp with e | o
              · rw [hmk] at h; simp at h
              · rw [hmk] at h
                simp only [except_bind_ok] at h
                obtain ⟨os, ho⟩ := ih _ _ _ _ h
                refine ⟨o :: os, ?_⟩
                rw [ho]
                simp

theorem processOrdersGo_invariants (config : BacktestConfig) (data : DataMap)
    (timestamp : Int) :
    ∀ (orders done : List BacktestOrder) (p pf : Portfolio),
      processOrdersGo config data timestamp orders done p = .ok pf →
      pf.equity = p.equity ∧ pf.equity_curve = p.equity_curve ∧
        ∃ suffix, pf.orders = done ++ suffix := by
  intro orders
  induction orders with
  | nil =>
      intro done p pf h
      simp only [processOrdersGo, Except.ok.injEq] at h
      rw [← h]
      exact ⟨rfl, rfl, [], by simp⟩
  | cons o rest ih =>
      intro done p pf h
      rw [processOrdersGo] at h
      dsimp only at h
      repeat' (first | (split at h) | (dsimp only at h))
      all_goals first
        | (exact absurd h (by simp))
        | (obtain ⟨he, hc, s, hs⟩ := ih _ _ _ h
           exact ⟨he, hc, _, by rw [hs, List.append_assoc]⟩)

theorem simStep_equity_curve (calcInd : Frame → IndParams → IndValue)
    (strategy : StrategyConfig) (config : BacktestConfig) (data : DataMap)
    (timestamp : Int) (st out : Portfolio × Nat)
    (h : simStep calcInd strategy config data timestamp st = .ok out) :
    ∃ pt : EquityPoint, pt.timestamp = timestamp ∧
      out.1.equity_curve = st.1.equity_curve ++ [pt] := by
  obtain ⟨p, n⟩ := st
  unfold simStep at h
  simp only [bind, Except.bind] at h
  rcases h1 : updatePortfolioState config data timestamp p with e | p1 <;>
    rw [h1] at h <;> dsimp only at h
  · simp at h
  · rcases h2 : generateSignals calcInd data strategy timestamp with e | sigs <;>
      rw [h2] at h <;> dsimp only at h
    · simp at h
    · rcases h3 : processSignals sigs p1 data timestamp config n with e | pn <;>
        rw [h3] at h <;> dsimp only at h
      · simp at h
      · obtain ⟨p2, n2⟩ := pn
        rcases h4 : processOrders p2 data timestamp config with e | p3 <;>
          rw [h4] at h <;> dsimp only at h
        · obtain ⟨e', pe⟩ := e
          simp [throw, throwThe, MonadExceptOf.throw] at h
        · simp only [pure, Except.pure, Except.ok.injEq] at h
          have c1 := (updatePortfolioState_invariants _ _ _ _ _ h1).2
          obtain ⟨os, hos⟩ := processSignalsGo_invariants _ _ _ _ _ _ _ h3
          have c2 : p2.equity_curve = p1.equity_curve := by rw [hos]
          have c3 := (processOrdersGo_invariants _ _ _ _ _ _ _ h4).2.1
          refine ⟨{ timestamp := timestamp, equity := p3.equity, cash := p3.cash,
                    positions_value := positionsValue p3.positions }, rfl, ?_⟩
          rw [← h]
          show (updateEquityCurve p3 timestamp).equity_curve = _
          unfold updateEquityCurve
          rw [c3, c2, c1]

theorem runSimulationGo_curve (calcInd : Frame → IndParams → IndValue)
    (strategy : StrategyConfig) (config : BacktestConfig) (data : DataMap) :
    ∀ (ts : List Int) (st out : Portfolio × Nat),
      runSimulationGo calcInd strategy config data ts st = .ok out →
      ∃ pts : List EquityPoint, out.1.equity_curve = st.1.equity_curve ++ pts ∧
        pts.map (fun pt => pt.timestamp) = ts := by
  intro ts
  induction ts with
  | nil =>
      intro st out h
      simp only [runSimulationGo, Except.ok.injEq] at h
      exact ⟨[], by rw [← h]; simp, rfl⟩
  | cons t rest ih =>
      intro st out h
      rw [runSimulationGo] at h
      simp only [bind, Except.bind] at h
      rcases hs : simStep calcInd strategy config data t st with e | st1 <;>
        rw [hs] at h <;> dsimp only at h
      · simp at h
      · obtain ⟨pt, hpt, hcurve⟩ := simStep_equity_curve _ _ _ _ _ _ _ hs
        obtain ⟨pts, hc2, hm⟩ := ih st1 out h
        refine ⟨pt :: pts, ?_, ?_⟩
        · rw [hc2, hcurve, List.append_assoc]; rfl
        · simp [hm, hpt]

theorem insertTs_mem (t : Int) (l : List Int) (a : Int) :
    a ∈ insertTs t l ↔ a = t ∨ a ∈ l := by
  induction l with
  | nil => simp [insertTs]
  | cons x xs ih =>
      unfold insertTs
      split
      · simp
      · split
        · rename_i h1 h2
          subst h2
          simp only [List.mem_cons]
          constructor
          · intro hc; exact Or.inr hc
          · rintro (hc | hc)
            · exact Or.inl hc
            · exact hc
        · simp only [List.mem_cons, ih]
          tauto

theorem insertTs_pairwise (t : Int) (l : List Int)
    (h : List.Pairwise (· < ·) l) : List.Pairwise (· < ·) (insertTs t l) := by
  induction l with
  | nil => simp [insertTs]
  | cons x xs ih =>
      rw [List.pairwise_cons] at h
      unfold insertTs
      split
      · rename_i h1
        rw [List.pairwise_cons]
        refine ⟨?_, by rw [List.pairwise_cons]; exact h⟩
        intro y hy
        rcases List.mem_cons.1 hy with hy | hy
        · rw [hy]; exact h1
        · exact h1.trans (h.1 y hy)
      · split
        · rw [List.pairwise_cons]; exact h
        · rename_i h1 h2
          have hx : x < t := by omega
          rw [List.pairwise_cons]
          refine ⟨?_, ih h.2⟩
          intro y hy
          rcases (insertTs_mem t xs y).1 hy with hy | hy
          · rw [hy]; exact hx
          · exact h.1 y hy

theorem sortedTimestamps_pairwise (data : DataMap) :
    List.Pairwise (· < ·) (sortedTimestamps data) := by
  unfold sortedTimestamps
  generalize allTimestampsList data = l
  induction l with
  | nil => simp
  | cons x xs ih => exact insertTs_pairwise x _ ih

theorem sortedTimestamps_mem (data : DataMap) (a : Int) :
    a ∈ sortedTimestamps data ↔ a ∈ allTimestampsList data := by
  unfold sortedTimestamps
  generalize allTimestampsList data = l
  induction l with
  | nil => simp
  | cons x xs ih => rw [List.foldr_cons, insertTs_mem]; simp [ih]

theorem allTimestampsList_mem (data : DataMap) (a : Int) :
    a ∈ allTimestampsList data ↔
      ∃ sd ∈ data, ∃ row ∈ sd.2, row.1 = a := by
  unfold allTimestampsList
  induction data with
  | nil => simp
  | cons sd rest ih =>
      rw [List.foldr_cons, List.mem_append, ih]
      simp only [List.mem_map, List.mem_cons]
      constructor
      · rintro (⟨b, hb, rfl⟩ | ⟨x, hx, y, hy⟩)
        · exact ⟨sd, Or.inl rfl, b, hb, rfl⟩
        · exact ⟨x, Or.inr hx, y, hy⟩
      · rintro ⟨x, hx | hx, y, hy, hya⟩
        · exact Or.inl ⟨y, by rw [hx] at hy; exact hy, hya⟩
        · exact Or.inr ⟨x, hx, y, hy, hya⟩

/-- C5: for every run that returns a result, the equity curve is non-empty;
it consists of exactly one initial point at `start_date` whose equity is
`config.initial_capital`, followed by exactly one point per distinct
simulated timestamp (the sorted duplicate-free union of the bar timestamps),
and — provided every bar lies at or after `start_date`, as the data
contract of §6 guarantees — its timestamps are in non-decreasing order. -/
theorem c5_equity_curve_shape (sqrtF : ℚ → ℚ) (powF : ℚ → ℚ → ℚ)
    (calcInd : Frame → IndParams → IndValue) (uuids : Nat → Nat) (now : Int)
    (strategy : StrategyConfig) (config : BacktestConfig) (data : DataMap)
    (res : BacktestResult)
    (hrange : ∀ sd ∈ data, ∀ row ∈ sd.2, config.start_date ≤ row.1)
    (hrun : runBacktest sqrtF powF calcInd uuids now strategy config data = .ok res) :
    res.equity_curve ≠ []
    ∧ res.equity_curve.map (fun pt => pt.timestamp) =
        config.start_date :: sortedTimestamps data
    ∧ (res.equity_curve.headD
        { timestamp := 0, equity := 0, cash := 0, positions_value := 0 }).equity =
        config.initial_capital
    ∧ List.Chain' (· ≤ ·) (res.equity_curve.map (fun pt => pt.timestamp))
    ∧ List.Pairwise (· < ·) (sortedTimestamps data)
    ∧ (∀ t, t ∈ sortedTimestamps data ↔ ∃ sd ∈ data, ∃ row ∈ sd.2, row.1 = t) := by
  unfold runBacktest at hrun
  simp only [bind, Except.bind] at hrun
  rcases hsim : runSimulation sqrtF powF calcInd data strategy
      (initializePortfolio config) config with e | rn <;>
    rw [hsim] at hrun <;> dsimp only at hrun
  · simp at hrun
  · obtain ⟨results, n⟩ := rn
    rcases hst : calculateStats results with e | stats <;>
      rw [hst] at hrun <;> dsimp only at hrun
    · simp at hrun
    · simp only [pure, Except.pure, Except.ok.injEq] at hrun
      have hcurve : res.equity_curve = results.equity_curve := by rw [← hrun]
      unfold runSimulation at hsim
      simp only [bind, Except.bind] at hsim
      rcases hgo : runSimulationGo calcInd strategy config data
          (sortedTimestamps data) (initializePortfolio config, 0) with e | pn <;>
        rw [hgo] at hsim <;> dsimp only at hsim
      · simp at hsim
      · obtain ⟨pfin, nfin⟩ := pn
        rcases hm : calculateMetrics sqrtF powF pfin with e | metrics <;>
          rw [hm] at hsim <;> dsimp only at hsim
        · simp at hsim
        · simp only [pure, Except.pure, Except.ok.injEq, Prod.mk.injEq] at hsim
          have hrc : results.equity_curve = pfin.equity_curve := by
            rw [← hsim.1]
          obtain ⟨pts, hpts, hmap⟩ := runSimulationGo_curve _ _ _ _ _ _ _ hgo
          have hinit : (initializePortfolio config, 0).1.equity_curve =
              [{ timestamp := config.start_date, equity := config.initial_capital,
                 cash := config.initial_capital, positions_value := 0 }] := rfl
          rw [hinit] at hpts
          have hfull : res.equity_curve =
              { timestamp := config.start_date, equity := config.initial_capital,
                cash := config.initial_capital, positions_value := 0 } :: pts := by
            rw [hcurve, hrc, hpts]; rfl
          have hmem := fun t => (sortedTimestamps_mem data t).trans
            (allTimestampsList_mem data t)
          have hpair := sortedTimestamps_pairwise data
          refine ⟨by rw [hfull]; simp, ?_, by rw [hfull]; rfl, ?_, hpair, hmem⟩
          · rw [hfull]
            simp only [List.map_cons]
            rw [hmap]
          · rw [hfull]
            simp only [List.map_cons]
            rw [hmap]
            rw [List.chain'_iff_pairwise]
            rw [List.pairwise_cons]
            constructor
            · intro t ht
              obtain ⟨sd, hsd, row, hrow, hrt⟩ := (hmem t).1 ht
              rw [← hrt]
              exact hrange sd hsd row hrow
            · exact hpair.imp (fun hab => le_of_lt hab)

/-- Witness for C5: a concrete two-bar run returns a result whose curve is
the initial point at the start date followed by the two bar timestamps. -/
theorem c5_equity_curve_shape_witness :
    runBacktest (fun q => q) (fun a b => a) (fun _ _ => IndValue.nan)
      (fun k => k) 5 stratEmpty cfgW dataW = .ok resW
    ∧ resW.equity_curve ≠ []
    ∧ resW.equity_curve.map (fun pt => pt.timestamp) =
        cfgW.start_date :: sortedTimestamps dataW
    ∧ (resW.equity_curve.headD
        { timestamp := 0, equity := 0, cash := 0, positions_value := 0 }).equity =
        cfgW.initial_capital := by
  have hrun : runBacktest (fun q => q) (fun a b => a) (fun _ _ => IndValue.nan)
      (fun k => k) 5 stratEmpty cfgW dataW = .ok resW := by
    norm_num [runBacktest, runSimulation, runSimulationGo, simStep,
      updatePortfolioState, updateStateGo, generateSignals, generateSignalsGo,
      processSignals, processSignalsGo, processOrders, processOrdersGo,
      updateEquityCurve, calculateMetrics, calculateStats, initializePortfolio,
      sortedTimestamps, allTimestampsList, insertTs, dataW, cfgW, stratEmpty,
      resW, positionsValue, bar100, bind, Except.bind, pure, Except.pure,
      scanConditions, indicatorsFor, truncFrame, lookupF, lookupA,
      updateStateStep, markPosition, stopLossCheck, takeProfitCheck, truthy,
      pctChange, pctChangeGo, listMean, listMaxQ, listMinQ, sampleVar,
      drawdownGo, mkOrderExc, checkCondition, checkConditionExc, getKey]
  have h := c5_equity_curve_shape (fun q => q) (fun a b => a)
    (fun _ _ => IndValue.nan) (fun k => k) 5 stratEmpty cfgW dataW resW
    (by decide) hrun
  exact ⟨hrun, h.1, h.2.1, h.2.2.1⟩

theorem lookupA_mem {α : Type} (m : List (String × α)) (k : String) (v : α)
    (h : lookupA m k = some v) : (k, v) ∈ m := by
  induction m with
  | nil => simp at h
  | cons e rest ih =>
      obtain ⟨k', v'⟩ := e
      rw [lookupA_cons] at h
      by_cases hk : k' = k
      · rw [if_pos hk] at h
        injection h with h
        rw [← hk, ← h]
        exact List.mem_cons_self _ _
      · rw [if_neg hk] at h
        exact List.mem_cons_of_mem _ (ih h)

/-- C4: a pending buy order processed at a timestamp with a bar is rejected
(and the loop continues with cash and positions untouched by it) exactly when
`fill_price * quantity + commission` exceeds the cash available at fill time;
otherwise it fills and the cash decreases by that cost, so every filled buy
satisfies `fill_price * quantity + commission ≤ cash_before_fill`.  There is
no partial fill: the rejected branch passes the portfolio on unchanged. -/
theorem c4_buy_rejected_on_insufficient_cash (config : BacktestConfig)
    (data : DataMap) (timestamp : Int) (order : BacktestOrder)
    (rest done : List BacktestOrder) (p : Portfolio) (df : Frame) (row : Bar)
    (hst : order.status = .pending) (hside : order.side = .buy)
    (hdf : lookupA data order.symbol = some df)
    (hrow : lookupF df timestamp = some row) :
    (row.close * (1 + config.slippage_rate) * order.quantity +
        row.close * (1 + config.slippage_rate) * order.quantity *
          config.commission_rate > p.cash →
      processOrdersGo config data timestamp (order :: rest) done p =
        processOrdersGo config data timestamp rest
          (done ++ [{ order with
            status := OrderStatus.rejected,
            fill_price := some (row.close * (1 + config.slippage_rate)),
            fill_timestamp := some timestamp,
            commission := row.close * (1 + config.slippage_rate) *
              order.quantity * config.commission_rate,
            slippage := |row.close * (1 + config.slippage_rate) - row.close| *
              order.quantity }]) p)
    ∧ (¬ (row.close * (1 + config.slippage_rate) * order.quantity +
            row.close * (1 + config.slippage_rate) * order.quantity *
              config.commission_rate > p.cash) →
        (∀ e ∈ p.positions, 0 < e.2.quantity) → 0 < order.quantity →
        ∃ p', processOrdersGo config data timestamp (order :: rest) done p =
            processOrdersGo config data timestamp rest
              (done ++ [{ order with
                status := OrderStatus.filled,
                fill_price := some (row.close * (1 + config.slippage_rate)),
                fill_timestamp := some timestamp,
                commission := row.close * (1 + config.slippage_rate) *
                  order.quantity * config.commission_rate,
                slippage := |row.close * (1 + config.slippage_rate) - row.close| *
                  order.quantity }]) p'
          ∧ p'.cash = p.cash -
              (row.close * (1 + config.slippage_rate) * order.quantity +
               row.close * (1 + config.slippage_rate) * order.quantity *
                 config.commission_rate)) := by
  constructor
  · intro hcost
    rw [processOrdersGo]
    dsimp only
    rw [if_neg (by simp [hst]), hdf]
    try dsimp only
    rw [hrow]
    try dsimp only
    simp only [hside, eq_self_iff_true, ite_true]
    rw [if_pos hcost]
  · intro hcost hq hoq
    rw [processOrdersGo]
    dsimp only
    rw [if_neg (by simp [hst]), hdf]
    try dsimp only
    rw [hrow]
    try dsimp only
    simp only [hside, eq_self_iff_true, ite_true]
    rw [if_neg hcost]
    rcases hpos : lookupA p.positions order.symbol with _ | position <;>
      simp only [hpos]
    · exact ⟨_, rfl, rfl⟩
    · have hq' : 0 < position.quantity := hq _ (lookupA_mem _ _ _ hpos)
      rw [if_neg (by positivity)]
      exact ⟨_, rfl, rfl⟩

/-- Witness for C4: with half a unit of cash the one-share buy at 100 is
rejected and the portfolio passes through unchanged; with 1000 cash it fills
and the cash drops by exactly the cost. -/
theorem c4_buy_rejected_on_insufficient_cash_witness :
    (processOrdersGo cfgW dataW 1 [ordW] [] pPoor =
      processOrdersGo cfgW dataW 1 []
        [{ ordW with
          status := OrderStatus.rejected,
          fill_price := some (bar100.close * (1 + cfgW.slippage_rate)),
          fill_timestamp := some 1,
          commission := bar100.close * (1 + cfgW.slippage_rate) * ordW.quantity *
            cfgW.commission_rate,
          slippage := |bar100.close * (1 + cfgW.slippage_rate) - bar100.close| *
            ordW.quantity }] pPoor)
    ∧ (∃ p', processOrdersGo cfgW dataW 1 [ordW] [] pRich =
        processOrdersGo cfgW dataW 1 []
          [{ ordW with
            status := OrderStatus.filled,
            fill_price := some (bar100.close * (1 + cfgW.slippage_rate)),
            fill_timestamp := some 1,
            commission := bar100.close * (1 + cfgW.slippage_rate) * ordW.quantity *
              cfgW.commission_rate,
            slippage := |bar100.close * (1 + cfgW.slippage_rate) - bar100.close| *
              ordW.quantity }] p'
        ∧ p'.cash = pRich.cash -
            (bar100.close * (1 + cfgW.slippage_rate) * ordW.quantity +
             bar100.close * (1 + cfgW.slippage_rate) * ordW.quantity *
               cfgW.commission_rate)) := by
  constructor
  · exact (c4_buy_rejected_on_insufficient_cash cfgW dataW 1 ordW [] [] pPoor
      [(1, bar100), (2, bar100)] bar100 rfl rfl rfl rfl).1
      (by norm_num [bar100, cfgW, ordW, pPoor])
  · exact (c4_buy_rejected_on_insufficient_cash cfgW dataW 1 ordW [] [] pRich
      [(1, bar100), (2, bar100)] bar100 rfl rfl rfl rfl).2
      (by norm_num [bar100, cfgW, ordW, pRich])
      (by intro e he; simp [pRich] at he) (by norm_num [ordW])

/-- Counterexample for C10 as stated: `_process_signals` does not create a
SELL order for a bearish entry signal — evaluating the order's `side`
argument reads the module global `TrendDirection`, which
`app/services/backtest.py` never imports, so the call raises `NameError`
before any order exists (and `config.enable_shorting` is never read). -/
theorem c10_counterexample :
    processSignals [sigB] pEmpty dataW 1 cfgW 0 = .error .nameError := by
  norm_num [processSignals, processSignalsGo, sigB, pEmpty, lookupA]
  exact fun hcon => absurd hcon (by decide)

/-- C10 (amended): an entry signal with no open position makes
`_process_signals` raise an unhandled `NameError` (after the position-sizing
division, which itself raises `ZeroDivisionError` on a zero signal price),
never consulting `config.enable_shorting` — the flag is irrelevant to the
whole function; and `_process_orders`, processing a pending sell order whose
symbol has a bar but no open position, first credits the sale proceeds to
cash and then raises an unhandled `KeyError` on the positions lookup,
aborting the run with the proceeds already booked. -/
theorem c10_entry_name_error_and_sell_key_error :
    (∀ (signal : BacktestSignal) (rest : List BacktestSignal) (p : Portfolio)
       (data : DataMap) (timestamp : Int) (config : BacktestConfig) (n : Nat),
       signal.type = "ENTRY" → lookupA p.positions signal.symbol = none →
       signal.price ≠ 0 →
       processSignals (signal :: rest) p data timestamp config n =
         .error .nameError)
    ∧ (∀ (signals : List BacktestSignal) (p : Portfolio) (data : DataMap)
         (timestamp : Int) (config : BacktestConfig) (n : Nat) (b : Bool),
         processSignals signals p data timestamp
           { config with enable_shorting := b } n =
         processSignals signals p data timestamp config n)
    ∧ (∀ (p : Portfolio) (order : BacktestOrder) (data : DataMap)
         (timestamp : Int) (config : BacktestConfig) (df : Frame) (row : Bar),
         p.orders = [order] → order.status = .pending →
         order.side = .sell → lookupA data order.symbol = some df →
         lookupF df timestamp = some row →
         lookupA p.positions order.symbol = none →
         ∃ perr, processOrders p data timestamp config =
             .error (.keyError, perr)
           ∧ perr.cash = p.cash +
               (row.close * (1 - config.slippage_rate) * order.quantity -
                row.close * (1 - config.slippage_rate) * order.quantity *
                  config.commission_rate)) := by
  refine ⟨?_, ?_, ?_⟩
  · intro signal rest p data timestamp config n htype hpos hprice
    unfold processSignals
    rw [processSignalsGo]
    rw [if_neg (by simp [hpos, htype]), if_neg (by simp [htype]),
      if_pos htype, if_neg hprice]
  · intro signals p data timestamp config n b
    unfold processSignals
    induction signals generalizing p n with
    | nil => rfl
    | cons s rest ih =>
        rw [processSignalsGo, processSignalsGo]
        by_cases h1 : (lookupA p.positions s.symbol).isSome ∧ s.type = "ENTRY"
        · rw [if_pos h1, if_pos h1, ih]
        · rw [if_neg h1, if_neg h1]
          by_cases h2 : (lookupA p.positions s.symbol).isNone ∧ s.type = "EXIT"
          · rw [if_pos h2, if_pos h2, ih]
          · rw [if_neg h2, if_neg h2]
            by_cases h3 : s.type = "ENTRY"
            · rw [if_pos h3, if_pos h3]
            · rw [if_neg h3, if_neg h3]
              rcases hpos : lookupA p.positions s.symbol with _ | position
              · rfl
              · dsimp only
                rcases hmk : mkOrderExc n s.symbol .market
                    (if position.type = .long then .sell else .buy)
                    position.quantity timestamp with e | o
                · simp only [hmk, except_bind_error]
                · simp only [hmk, except_bind_ok]
                  rw [ih]
  · intro p order data timestamp config df row horders hst hside hdf hrow hpos
    unfold processOrders
    rw [horders, processOrdersGo]
    dsimp only
    rw [if_neg (by simp [hst]), hdf]
    try dsimp only
    rw [hrow]
    try dsimp only
    simp only [hside]
    rw [if_neg (by simp)]
    simp only [hpos]
    exact ⟨_, rfl, rfl⟩

/-- Witness for C10: the bearish entry signal raises `NameError`, flipping
`enable_shorting` changes nothing, and the orphan sell credits the proceeds
and then raises `KeyError`. -/
theorem c10_entry_name_error_and_sell_key_error_witness :
    processSignals [sigB] pEmpty dataW 1 cfgW 0 = .error PyErr.nameError
    ∧ processSignals [sigB] pEmpty dataW 1
        { cfgW with enable_shorting := true } 0 =
      processSignals [sigB] pEmpty dataW 1 cfgW 0
    ∧ ∃ perr, processOrders pSell dataW 1 cfgW = .error (.keyError, perr)
        ∧ perr.cash = pSell.cash +
            (bar100.close * (1 - cfgW.slippage_rate) * ordSell.quantity -
             bar100.close * (1 - cfgW.slippage_rate) * ordSell.quantity *
               cfgW.commission_rate) := by
  refine ⟨?_, ?_, ?_⟩
  · exact c10_entry_name_error_and_sell_key_error.1 sigB [] pEmpty dataW 1
      cfgW 0 rfl rfl (by norm_num [sigB])
  · exact c10_entry_name_error_and_sell_key_error.2.1 [sigB] pEmpty dataW 1
      cfgW 0 true
  · exact c10_entry_name_error_and_sell_key_error.2.2 pSell ordSell dataW 1
      cfgW [(1, bar100), (2, bar100)] bar100 rfl rfl rfl rfl rfl rfl

/-- Counterexample for C9 as stated: with one winning trade (P&L `1`) and one
losing trade (P&L exactly `0`) the profit factor is not a finite value — the
division by `abs(sum(losing pnl)) = 0` raises `ZeroDivisionError` and
`_calculate_stats` produces no stats at all, even though there is at least
one losing trade. -/
theorem c9_counterexample :
    calculateStats resPF = .error .zeroDivisionError
    ∧ (resPF.trades.filter (fun t => t.pnl ≤ 0)).length = 1 := by
  constructor
  · rw [calculateStats, if_neg (by simp [resPF])]
    rw [profitFactorExc,
      if_neg (by simp [resPF, trW, List.filter]; norm_num),
      if_pos (by simp [resPF, trW, List.filter]; norm_num)]
    rfl
  · norm_num [resPF, trW, List.filter]

/-- C9 (amended): the profit factor is `0` when there are no trades at all
(the default `TradeStats`); it is `+∞` exactly when there is at least one
winning trade and zero losing trades; with at least one losing trade it
equals gross winning P&L over the absolute gross losing P&L — a finite value
whenever the gross losing P&L is nonzero, while a zero gross losing P&L
(every losing trade has P&L exactly `0`) raises `ZeroDivisionError` and the
run fails instead of reporting a finite factor. -/
theorem c9_profit_factor (results : SimResults) :
    (results.trades = [] → calculateStats results = .ok {}
        ∧ ({} : TradeStats).profit_factor = 0)
    ∧ (results.trades ≠ [] → results.trades.filter (fun t => t.pnl ≤ 0) = [] →
        ∃ st, calculateStats results = .ok st ∧ st.profit_factor = ⊤
          ∧ results.trades.filter (fun t => t.pnl > 0) ≠ [])
    ∧ (results.trades.filter (fun t => t.pnl ≤ 0) ≠ [] →
        ((results.trades.filter (fun t => t.pnl ≤ 0)).map (fun t => t.pnl)).sum ≠ 0 →
        ∃ st, calculateStats results = .ok st
          ∧ st.profit_factor =
              ((((results.trades.filter (fun t => t.pnl > 0)).map (fun t => t.pnl)).sum /
                |((results.trades.filter (fun t => t.pnl ≤ 0)).map (fun t => t.pnl)).sum| : ℚ) :
                WithTop ℚ))
    ∧ (results.trades.filter (fun t => t.pnl ≤ 0) ≠ [] →
        ((results.trades.filter (fun t => t.pnl ≤ 0)).map (fun t => t.pnl)).sum = 0 →
        calculateStats results = .error .zeroDivisionError)
    ∧ (∀ st, calculateStats results = .ok st →
        (st.profit_factor = ⊤ ↔
          results.trades.filter (fun t => t.pnl > 0) ≠ [] ∧
          results.trades.filter (fun t => t.pnl ≤ 0) = [])) := by
  by_cases htr : results.trades = []
  · refine ⟨fun _ => ⟨by rw [calculateStats, if_pos htr], rfl⟩,
      fun h => absurd htr h, ?_, ?_, ?_⟩
    · rw [htr]; simp
    · rw [htr]; simp
    · intro st hst
      rw [calculateStats, if_pos htr] at hst
      simp only [Except.ok.injEq] at hst
      rw [← hst, htr]
      simp
  · rw [calculateStats, if_neg htr]
    by_cases hlos : results.trades.filter (fun t => t.pnl ≤ 0) = []
    · rw [profitFactorExc, if_pos hlos]
      obtain ⟨t0, ht0⟩ := List.exists_mem_of_ne_nil _ htr
      have ht0p : t0.pnl > 0 := by
        have := List.filter_eq_nil_iff.mp hlos t0 ht0
        simp at this
        linarith
      have hwin : results.trades.filter (fun t => t.pnl > 0) ≠ [] := by
        intro hcon
        have := List.filter_eq_nil_iff.mp hcon t0 ht0
        simp at this
        linarith
      refine ⟨fun h => absurd h htr, fun _ _ => ⟨_, rfl, rfl, hwin⟩,
        fun hcon => absurd hlos hcon, fun hcon => absurd hlos hcon, ?_⟩
      intro st hst
      simp only [Except.map, Except.ok.injEq] at hst
      rw [← hst]
      have hall : ∀ a ∈ results.trades, 0 < a.pnl := by
        intro a ha
        have := List.filter_eq_nil_iff.mp hlos a ha
        simp at this
        linarith
      simpa [statsOf] using ⟨⟨t0, ht0, ht0p⟩, hall⟩
    · rw [profitFactorExc, if_neg hlos]
      by_cases hsum : ((results.trades.filter (fun t => t.pnl ≤ 0)).map (fun t => t.pnl)).sum = 0
      · rw [if_pos (by rw [hsum]; simp)]
        refine ⟨fun h => absurd h htr, fun _ hcon => absurd hcon hlos,
          fun _ hcon => absurd hsum hcon, fun _ _ => rfl, ?_⟩
        intro st hst
        simp [Except.map] at hst
      · rw [if_neg (by simpa using hsum)]
        refine ⟨fun h => absurd h htr, fun _ hcon => absurd hcon hlos,
          fun _ _ => ⟨_, rfl, rfl⟩, fun _ hcon => absurd hcon hsum, ?_⟩
        intro st hst
        simp only [Except.map, Except.ok.injEq] at hst
        rw [← hst]
        constructor
        · intro hcon
          exact absurd hcon (by simp [statsOf])
        · rintro ⟨h1, h2⟩
          exact absurd h2 hlos

/-- Witness for C9: no trades gives profit factor `0`; one winning trade
gives `+∞`; a winning trade plus a zero-P&L losing trade raises
`ZeroDivisionError`. -/
theorem c9_profit_factor_witness :
    (calculateStats resNone = .ok {} ∧ ({} : TradeStats).profit_factor = 0)
    ∧ (∃ st, calculateStats resWin = .ok st ∧ st.profit_factor = ⊤)
    ∧ calculateStats resPF = .error .zeroDivisionError := by
  refine ⟨(c9_profit_factor resNone).1 rfl, ?_, ?_⟩
  · obtain ⟨st, h1, h2, h3⟩ := (c9_profit_factor resWin).2.1
      (by norm_num [resWin]) (by norm_num [resWin, trW, List.filter])
    exact ⟨st, h1, h2⟩
  · exact (c9_profit_factor resPF).2.2.2.1
      (by norm_num [resPF, trW, List.filter])
      (by norm_num [resPF, trW, List.filter])

/-- Counterexample for C7 as stated: with two configured symbols, `A` served
from cache and `B` with no data, the run does not complete over the partial
symbol set — the cache miss for `B` makes `_get_historical_data` call
`market_data_service.get_historical_data(symbol=…, timeframe=…,
start_date=…, end_date=…)`, whose signature accepts no such keywords, so the
call raises `TypeError` and, with no per-symbol handler, the whole run
fails. -/
theorem c7_counterexample :
    runBacktestFetch (fun q => q) (fun a b => a) (fun _ _ => IndValue.nan)
      (fun k => k) 0 cacheW stratEmpty cfg2 = .error .typeError
    ∧ (cacheW "A").isSome = true := by
  constructor
  · have hget : getHistoricalData cacheW cfg2 = .error .typeError := by
      simp [getHistoricalData, getHistoricalDataGo, cacheW, cfg2, cfgW, bind,
        Except.bind]
    unfold runBacktestFetch
    simp only [bind, Except.bind, hget]
  · simp [cacheW]

/-- C7 (amended): `_get_historical_data` succeeds exactly when every
configured symbol is served from the cache; a cache miss for any symbol —
in particular a data-unavailable symbol — aborts the entire fetch (and with
it the run) with the `TypeError` of the malformed `get_historical_data`
call, regardless of how many other symbols have data. -/
theorem c7_fetch_failure_is_fatal :
    (∀ (cache : String → Option Frame) (config : BacktestConfig),
       (∃ d, getHistoricalData cache config = .ok d) ↔
         ∀ s ∈ config.symbols, (cache s).isSome)
    ∧ (∀ (cache : String → Option Frame) (config : BacktestConfig) (s : String),
         s ∈ config.symbols → cache s = none →
         getHistoricalData cache config = .error .typeError) := by
  have hgo : ∀ (cache : String → Option Frame) (syms : List String),
      (∃ d, getHistoricalDataGo cache syms = .ok d) ↔
        ∀ s ∈ syms, (cache s).isSome := by
    intro cache syms
    induction syms with
    | nil => simp [getHistoricalDataGo]
    | cons s0 rest ih =>
        rw [getHistoricalDataGo]
        rcases hc : cache s0 with _ | df
        · simp [hc]
        · simp only [bind, Except.bind]
          constructor
          · rintro ⟨d, hd⟩
            rcases hr : getHistoricalDataGo cache rest with e | dr <;> rw [hr] at hd
            · simp at hd
            · intro s hs
              rcases List.mem_cons.1 hs with hs | hs
              · rw [hs, hc]; rfl
              · exact (ih.1 ⟨dr, hr⟩) s hs
          · intro hall
            obtain ⟨dr, hdr⟩ := ih.2 (fun s hs => hall s (List.mem_cons_of_mem _ hs))
            exact ⟨(s0, df) :: dr, by rw [hdr]; rfl⟩
  constructor
  · intro cache config
    exact hgo cache config.symbols
  · intro cache config s
    unfold getHistoricalData
    generalize config.symbols = syms
    induction syms with
    | nil => intro h; simp at h
    | cons s0 rest ih =>
        intro hs hcs
        rw [getHistoricalDataGo]
        rcases hc : cache s0 with _ | df
        · rfl
        · simp only [bind, Except.bind]
          rcases List.mem_cons.1 hs with h0 | h0
          · rw [← h0] at hc
            rw [hcs] at hc
            simp at hc
          · rw [ih h0 hcs]

/-- Witness for C7: the two-symbol fetch with `B` missing fails with
`TypeError`, while the one-symbol fetch for `A` succeeds. -/
theorem c7_fetch_failure_is_fatal_witness :
    getHistoricalData cacheW cfg2 = .error .typeError
    ∧ (∃ d, getHistoricalData cacheW cfgW = .ok d) := by
  constructor
  · exact c7_fetch_failure_is_fatal.2 cacheW cfg2 "B" (by simp [cfg2, cfgW])
      (by simp [cacheW])
  · exact (c7_fetch_failure_is_fatal.1 cacheW cfgW).2
      (by intro s hs; simp [cfgW] at hs; simp [hs, cacheW])

/-- Counterexample for C6 as stated: two runs of `run_backtest` on identical
config, strategy and data do not produce field-for-field identical
`BacktestResult` values — `BacktestResult.id` is a fresh `uuid4()` draw and
`created_at` a fresh `datetime.utcnow()`, so runs under different draws
differ in those fields. -/
theorem c6_counterexample :
    runBacktest (fun q => q) (fun a b => a) (fun _ _ => IndValue.nan)
      (fun k => k) 0 stratEmpty cfgW [] ≠
    runBacktest (fun q => q) (fun a b => a) (fun _ _ => IndValue.nan)
      (fun k => k + 1) 1 stratEmpty cfgW [] := by
  have h1 : runBacktest (fun q => q) (fun a b => a) (fun _ _ => IndValue.nan)
      (fun k => k) 0 stratEmpty cfgW [] = .ok resA := rfl
  have h2 : runBacktest (fun q => q) (fun a b => a) (fun _ _ => IndValue.nan)
      (fun k => k + 1) 1 stratEmpty cfgW [] = .ok resB := rfl
  rw [h1, h2]
  intro hcon
  have : resA.id = resB.id := by rw [Except.ok.inj hcon]
  simp [resA, resB] at this

/-- C6 (amended): the simulation is deterministic — for a fixed config,
strategy and data set, two runs agree on every field except the freshly
drawn `id`, `created_at` and per-order ids: erasing exactly those fields
(`stripResult`) makes the results of any two runs (any uuid streams, any
clocks) identical, errors included. -/
theorem c6_stripped_determinism (sqrtF : ℚ → ℚ) (powF : ℚ → ℚ → ℚ)
    (calcInd : Frame → IndParams → IndValue) (strategy : StrategyConfig)
    (config : BacktestConfig) (data : DataMap)
    (u u' : Nat → Nat) (n n' : Int) :
    (runBacktest sqrtF powF calcInd u n strategy config data).map stripResult =
    (runBacktest sqrtF powF calcInd u' n' strategy config data).map stripResult := by
  unfold runBacktest
  simp only [bind, Except.bind]
  rcases hsim : runSimulation sqrtF powF calcInd data strategy
      (initializePortfolio config) config with e | rn
  · rfl
  · obtain ⟨results, k⟩ := rn
    dsimp only
    rcases hst : calculateStats results with e | stats
    · rfl
    · dsimp only [pure, Except.pure, Except.map, stripResult]
      simp only [List.map_map]
      have hfun : (stripOrderId ∘ fun o => { o with id := u o.id }) = stripOrderId := by
        funext o
        rfl
      have hfun' : (stripOrderId ∘ fun o => { o with id := u' o.id }) = stripOrderId := by
        funext o
        rfl
      rw [hfun, hfun']

theorem markedValue_nil (data : DataMap) (t : Int) : markedValue data t [] = 0 := rfl

theorem markedValue_cons (data : DataMap) (t : Int) (e : String × Position)
    (es : List (String × Position)) :
    markedValue data t (e :: es) =
      (match lookupA data e.1 with
       | none => 0
       | some df =>
           match lookupF df t with
           | none => 0
           | some row => e.2.quantity * row.close) + markedValue data t es := by
  simp [markedValue]

theorem updateStateStep_no_risk (config : BacktestConfig) (data : DataMap)
    (t : Int) (hsl : truthy config.stop_loss = false)
    (htp : truthy config.take_profit = false) (p : Portfolio) (pv : ℚ)
    (e : String × Position) :
    updateStateStep config data t (p, pv) e =
      .ok (match lookupA data e.1 with
           | none => (p, pv)
           | some df =>
               match lookupF df t with
               | none => (p, pv)
               | some row =>
                   ({ p with positions :=
                        updateA p.positions e.1 (markPosition e.2 row.close t) },
                    pv + e.2.quantity * row.close)) := by
  unfold updateStateStep
  rcases hd : lookupA data e.1 with _ | df
  · simp
  · rcases hr : lookupF df t with _ | row
    · simp [hr]
    · simp [hr, stopLossCheck, takeProfitCheck, hsl, htp, bind, Except.bind,
        pure, Except.pure, markPosition]

theorem updateStateGo_no_risk (config : BacktestConfig) (data : DataMap)
    (t : Int) (hsl : truthy config.stop_loss = false)
    (htp : truthy config.take_profit = false) :
    ∀ (entries : List (String × Position)) (p : Portfolio) (pv : ℚ),
      ∃ ps, updateStateGo config data t entries p pv =
        .ok ({ p with positions := ps }, pv + markedValue data t entries) := by
  intro entries
  induction entries with
  | nil =>
      intro p pv
      exact ⟨p.positions, by simp [updateStateGo, markedValue]⟩
  | cons e rest ih =>
      intro p pv
      rw [updateStateGo, updateStateStep_no_risk config data t hsl htp]
      rw [markedValue_cons]
      rcases hd : lookupA data e.1 with _ | df
      · simp only [bind, Except.bind]
        obtain ⟨ps, hps⟩ := ih p pv
        refine ⟨ps, ?_⟩
        rw [hps]
        simp [zero_add]
      · rcases hr : lookupF df t with _ | row
        · simp only [hr, bind, Except.bind]
          obtain ⟨ps, hps⟩ := ih p pv
          refine ⟨ps, ?_⟩
          rw [hps]
          simp [zero_add]
        · simp only [hr, bind, Except.bind]
          obtain ⟨ps, hps⟩ := ih
            { p with positions := updateA p.positions e.1 (markPosition e.2 row.close t) }
            (pv + e.2.quantity * row.close)
          refine ⟨ps, ?_⟩
          rw [hps]
          simp [add_assoc]

theorem updatePortfolioState_no_risk (config : BacktestConfig) (data : DataMap)
    (t : Int) (hsl : truthy config.stop_loss = false)
    (htp : truthy config.take_profit = false) (p : Portfolio) :
    ∃ ps, updatePortfolioState config data t p =
      .ok { p with positions := ps,
                   equity := p.cash + markedValue data t p.positions } := by
  unfold updatePortfolioState
  obtain ⟨ps, hps⟩ := updateStateGo_no_risk config data t hsl htp p.positions p 0
  rw [hps]
  exact ⟨ps, by simp [bind, Except.bind, pure, Except.pure, zero_add]⟩

/-- Counterexample for C3 as stated: at the timestamp where `pRich`'s
pending one-share buy fills, the appended equity-curve point records
`equity = 1000` (the value computed by the mark-to-market step at the start
of the timestamp), while the post-order-processing state has
`cash + Σ quantity·current_price = 999.89999`; the appended point does not
satisfy the claimed identity. -/
theorem c3_counterexample :
    simStep (fun _ _ => IndValue.nan) stratEmpty cfgW dataW 1 (pRich, 0) =
      .ok (sC3, 0)
    ∧ (sC3.equity_curve.getLastD
        { timestamp := 0, equity := 0, cash := 0, positions_value := 0 }).equity ≠
        sC3.cash + positionsValue sC3.positions := by
  constructor
  · norm_num [simStep, updatePortfolioState, updateStateGo, updateStateStep,
      markPosition, stopLossCheck, takeProfitCheck, truthy, generateSignals,
      generateSignalsGo, scanConditions, indicatorsFor, truncFrame, lookupF,
      lookupA, processSignals, processSignalsGo, processOrders, processOrdersGo,
      updateEquityCurve, positionsValue, mkOrderExc, bind, Except.bind, pure,
      Except.pure, sC3, pRich, ordW, cfgW, dataW, stratEmpty, bar100, updateA]
  · norm_num [sC3, positionsValue]

/-- C3 (amended): with no stop-loss and no take-profit configured, the
equity-curve point appended for a timestamp has that timestamp, its `cash`
and `positions_value` fields reflect the state after signal and order
processing, but its `equity` field is the value computed by the
mark-to-market step at the start of the timestamp —
`cash_before + Σ(quantity × close)` over the positions that had a bar —
not the post-processing `cash + Σ(quantity × current_price)`. -/
theorem c3_equity_point_amended (calcInd : Frame → IndParams → IndValue)
    (strategy : StrategyConfig) (config : BacktestConfig) (data : DataMap)
    (t : Int) (p : Portfolio) (n : Nat) (s : Portfolio) (n' : Nat)
    (hsl : config.stop_loss = none) (htp : config.take_profit = none)
    (h : simStep calcInd strategy config data t (p, n) = .ok (s, n')) :
    ∃ pt : EquityPoint, s.equity_curve = p.equity_curve ++ [pt]
      ∧ pt.timestamp = t
      ∧ pt.equity = p.cash + markedValue data t p.positions
      ∧ pt.cash = s.cash
      ∧ pt.positions_value = positionsValue s.positions := by
  have hsl' : truthy config.stop_loss = false := by rw [hsl]; rfl
  have htp' : truthy config.take_profit = false := by rw [htp]; rfl
  unfold simStep at h
  simp only [bind, Except.bind] at h
  obtain ⟨ps, hps⟩ := updatePortfolioState_no_risk config data t hsl' htp' p
  rw [hps] at h
  dsimp only at h
  rcases h2 : generateSignals calcInd data strategy t with e | sigs <;>
    rw [h2] at h <;> dsimp only at h
  · simp at h
  · rcases h3 : processSignals sigs
        { p with positions := ps, equity := p.cash + markedValue data t p.positions }
        data t config n with e | pn <;> rw [h3] at h <;> dsimp only at h
    · simp at h
    · obtain ⟨p2, n2⟩ := pn
      rcases h4 : processOrders p2 data t config with e | p3 <;>
        rw [h4] at h <;> dsimp only at h
      · obtain ⟨e', pe⟩ := e
        simp [throw, throwThe, MonadExceptOf.throw] at h
      · simp only [pure, Except.pure, Except.ok.injEq, Prod.mk.injEq] at h
        obtain ⟨os, hos⟩ := processSignalsGo_invariants _ _ _ _ _ _ _ h3
        have heq2 : p2.equity = p.cash + markedValue data t p.positions := by
          rw [hos]
        have hc2 : p2.equity_curve = p.equity_curve := by rw [hos]
        have he3 := (processOrdersGo_invariants _ _ _ _ _ _ _ h4).1
        have hc3 := (processOrdersGo_invariants _ _ _ _ _ _ _ h4).2.1
        refine ⟨{ timestamp := t, equity := p3.equity, cash := p3.cash,
                  positions_value := positionsValue p3.positions }, ?_, rfl, ?_, ?_, ?_⟩
        · rw [← h.1]
          show (updateEquityCurve p3 t).equity_curve = _
          unfold updateEquityCurve
          rw [hc3, hc2]
        · rw [he3, heq2]
        · rw [← h.1]; rfl
        · rw [← h.1]; rfl

/-- Witness for C3 (amended): the concrete `pRich` step satisfies the
amended description of the appended point. -/
theorem c3_equity_point_amended_witness :
    ∃ pt : EquityPoint, sC3.equity_curve = pRich.equity_curve ++ [pt]
      ∧ pt.timestamp = 1
      ∧ pt.equity = pRich.cash + markedValue dataW 1 pRich.positions
      ∧ pt.cash = sC3.cash
      ∧ pt.positions_value = positionsValue sC3.positions := by
  have hstep : simStep (fun _ _ => IndValue.nan) stratEmpty cfgW dataW 1
      (pRich, 0) = .ok (sC3, 0) := by
    norm_num [simStep, updatePortfolioState, updateStateGo, updateStateStep,
      markPosition, stopLossCheck, takeProfitCheck, truthy, generateSignals,
      generateSignalsGo, scanConditions, indicatorsFor, truncFrame, lookupF,
      lookupA, processSignals, processSignalsGo, processOrders, processOrdersGo,
      updateEquityCurve, positionsValue, mkOrderExc, bind, Except.bind, pure,
      Except.pure, sC3, pRich, ordW, cfgW, dataW, stratEmpty, bar100, updateA]
  exact c3_equity_point_amended (fun _ _ => IndValue.nan) stratEmpty cfgW dataW
    1 pRich 0 sC3 0 rfl rfl hstep


theorem lookupA_eq_none {α : Type} (k : String) :
    ∀ m : List (String × α), k ∉ m.map Prod.fst → lookupA m k = none := by
  intro m
  induction m with
  | nil => intro _; rfl
  | cons e rest ih =>
      obtain ⟨a, b⟩ := e
      intro h
      simp only [List.map_cons, List.mem_cons, not_or] at h
      rw [lookupA_cons, if_neg (fun hc => h.1 hc.symm)]
      exact ih h.2

theorem isSome_lookupA_of_mem {α : Type} (k : String) (v : α) :
    ∀ m : List (String × α), (k, v) ∈ m → (lookupA m k).isSome = true := by
  intro m
  induction m with
  | nil => intro h; simp at h
  | cons e rest ih =>
      obtain ⟨a, b⟩ := e
      intro h
      rw [lookupA_cons]
      by_cases h1 : a = k
      · rw [if_pos h1]; rfl
      · rw [if_neg h1]
        rcases List.mem_cons.mp h with h2 | h2
        · exact absurd (congrArg Prod.fst h2).symm h1
        · exact ih h2

theorem lookupA_updateA_self {α : Type} (k : String) (v : α) :
    ∀ m : List (String × α), (lookupA m k).isSome = true →
      lookupA (updateA m k v) k = some v := by
  intro m
  induction m with
  | nil => intro h; simp at h
  | cons e rest ih =>
      obtain ⟨a, b⟩ := e
      intro h
      rw [updateA_cons]
      by_cases h1 : a = k
      · rw [if_pos h1, lookupA_cons, if_pos h1]
      · rw [if_neg h1, lookupA_cons, if_neg h1]
        rw [lookupA_cons, if_neg h1] at h
        exact ih h

theorem lookupA_updateA_ne {α : Type} (k k' : String) (v : α) (h : k' ≠ k) :
    ∀ m : List (String × α), lookupA (updateA m k v) k' = lookupA m k' := by
  intro m
  induction m with
  | nil => rfl
  | cons e rest ih =>
      obtain ⟨a, b⟩ := e
      rw [updateA_cons]
      by_cases h1 : a = k
      · have hno : ¬ a = k' := fun hc => h (hc.symm.trans h1)
        rw [if_pos h1, lookupA_cons, lookupA_cons, if_neg hno, if_neg hno]
      · rw [if_neg h1, lookupA_cons, lookupA_cons]
        by_cases h2 : a = k'
        · rw [if_pos h2, if_pos h2]
        · rw [if_neg h2, if_neg h2, ih]

theorem lookupA_eraseA_ne {α : Type} (k k' : String) (h : k' ≠ k) :
    ∀ m : List (String × α), lookupA (eraseA m k) k' = lookupA m k' := by
  intro m
  induction m with
  | nil => rfl
  | cons e rest ih =>
      obtain ⟨a, b⟩ := e
      rw [eraseA_cons]
      by_cases h1 : a = k
      · have hno : ¬ a = k' := fun hc => h (hc.symm.trans h1)
        rw [if_pos h1, lookupA_cons, if_neg hno]
      · rw [if_neg h1, lookupA_cons, lookupA_cons]
        by_cases h2 : a = k'
        · rw [if_pos h2, if_pos h2]
        · rw [if_neg h2, if_neg h2, ih]

theorem keys_updateA {α : Type} (k : String) (v : α) :
    ∀ m : List (String × α), (updateA m k v).map Prod.fst = m.map Prod.fst := by
  intro m
  induction m with
  | nil => rfl
  | cons e rest ih =>
      obtain ⟨a, b⟩ := e
      rw [updateA_cons]
      by_cases h1 : a = k
      · rw [if_pos h1, List.map_cons, List.map_cons]
      · rw [if_neg h1, List.map_cons, List.map_cons, ih]

theorem keys_eraseA_sublist {α : Type} (k : String) :
    ∀ m : List (String × α),
      List.Sublist ((eraseA m k).map Prod.fst) (m.map Prod.fst) := by
  intro m
  induction m with
  | nil => exact List.Sublist.refl _
  | cons e rest ih =>
      obtain ⟨a, b⟩ := e
      rw [eraseA_cons]
      by_cases h1 : a = k
      · rw [if_pos h1, List.map_cons]
        exact List.Sublist.cons _ (List.Sublist.refl _)
      · rw [if_neg h1, List.map_cons, List.map_cons]
        exact List.Sublist.cons₂ _ ih

theorem lookupA_eraseA_self {α : Type} (k : String) :
    ∀ m : List (String × α), (m.map Prod.fst).Nodup →
      lookupA (eraseA m k) k = none := by
  intro m
  induction m with
  | nil => intro _; rfl
  | cons e rest ih =>
      obtain ⟨a, b⟩ := e
      intro hn
      simp only [List.map_cons, List.nodup_cons] at hn
      rw [eraseA_cons]
      by_cases h1 : a = k
      · rw [if_pos h1]
        exact lookupA_eq_none k rest (fun hc => hn.1 (by rw [h1]; exact hc))
      · rw [if_neg h1, lookupA_cons, if_neg h1]
        exact ih hn.2

theorem markPosition_type (p : Position) (c : ℚ) (t : Int) :
    (markPosition p c t).type = p.type := rfl

theorem markPosition_entry_price (p : Position) (c : ℚ) (t : Int) :
    (markPosition p c t).entry_price = p.entry_price := rfl

theorem markPosition_quantity (p : Position) (c : ℚ) (t : Int) :
    (markPosition p c t).quantity = p.quantity := rfl

theorem stopPriceOf_markPosition (config : BacktestConfig) (p : Position)
    (c : ℚ) (t : Int) :
    stopPriceOf config (markPosition p c t) = stopPriceOf config p := rfl

theorem takeProfitPriceOf_markPosition (config : BacktestConfig) (p : Position)
    (c : ℚ) (t : Int) :
    takeProfitPriceOf config (markPosition p c t) = takeProfitPriceOf config p := rfl

theorem exists_some_of_truthy (o : Option ℚ) (h : truthy o = true) :
    ∃ v, o = some v := by
  cases o with
  | none => simp [truthy] at h
  | some v => exact ⟨v, rfl⟩

theorem no_double_trigger (config : BacktestConfig) (pos : Position) (c : ℚ)
    (hep : 0 < pos.entry_price)
    (hsl : ∀ sl, config.stop_loss = some sl → 0 < sl)
    (htp : ∀ tp, config.take_profit = some tp → 0 < tp)
    (hslt : truthy config.stop_loss = true)
    (htpt : truthy config.take_profit = true)
    (h1 : (pos.type = PositionType.long ∧ c ≤ stopPriceOf config pos) ∨
          (pos.type = PositionType.short ∧ stopPriceOf config pos ≤ c))
    (h2 : (pos.type = PositionType.long ∧ takeProfitPriceOf config pos ≤ c) ∨
          (pos.type = PositionType.short ∧ c ≤ takeProfitPriceOf config pos)) :
    False := by
  obtain ⟨sl, hsleq⟩ := exists_some_of_truthy _ hslt
  obtain ⟨tp, htpeq⟩ := exists_some_of_truthy _ htpt
  have hsl0 := hsl sl hsleq
  have htp0 := htp tp htpeq
  have hkey : 0 < pos.entry_price * (sl + tp) := mul_pos hep (by linarith)
  rcases h1 with ⟨hty, hc1⟩ | ⟨hty, hc1⟩ <;>
    rcases h2 with ⟨hty2, hc2⟩ | ⟨hty2, hc2⟩
  · rw [stopPriceOf, if_pos hty, hsleq, Option.getD_some] at hc1
    rw [takeProfitPriceOf, if_pos hty2, htpeq, Option.getD_some] at hc2
    nlinarith
  · rw [hty] at hty2; exact absurd hty2 (by decide)
  · rw [hty] at hty2; exact absurd hty2 (by decide)
  · have hno : ¬ pos.type = PositionType.long := by rw [hty]; decide
    rw [stopPriceOf, if_neg hno, hsleq, Option.getD_some] at hc1
    rw [takeProfitPriceOf, if_neg hno, htpeq, Option.getD_some] at hc2
    nlinarith

theorem markPosition_entry_timestamp (p : Position) (c : ℚ) (t : Int) :
    (markPosition p c t).entry_timestamp = p.entry_timestamp := rfl

theorem markPosition_commission_paid (p : Position) (c : ℚ) (t : Int) :
    (markPosition p c t).commission_paid = p.commission_paid := rfl


theorem updateStateStep_char (config : BacktestConfig) (data : DataMap)
    (t : Int) (q : Portfolio) (pv : ℚ) (e : String × Position)
    (hpres : (lookupA q.positions e.1).isSome = true)
    (hep : 0 < e.2.entry_price)
    (hsl : ∀ sl, config.stop_loss = some sl → 0 < sl)
    (htp : ∀ tp, config.take_profit = some tp → 0 < tp) :
    ∃ q' pv', updateStateStep config data t (q, pv) e = .ok (q', pv') ∧
      (∀ k, k ≠ e.1 → lookupA q'.positions k = lookupA q.positions k) ∧
      (∃ extra, q'.trades = q.trades ++ extra ∧
        ∀ tr ∈ extra, tr.symbol = e.1) ∧
      q'.orders = q.orders ∧ q'.equity_curve = q.equity_curve ∧
      List.Sublist (q'.positions.map Prod.fst) (q.positions.map Prod.fst) := by
  obtain ⟨sym, pos⟩ := e
  rcases hdf : lookupA data sym with _ | df
  · exact ⟨q, pv, by simp [updateStateStep, hdf], fun k _ => rfl,
      ⟨[], by simp, by simp⟩, rfl, rfl, List.Sublist.refl _⟩
  · rcases hrow : lookupF df t with _ | row
    · exact ⟨q, pv, by simp [updateStateStep, hdf, hrow], fun k _ => rfl,
        ⟨[], by simp, by simp⟩, rfl, rfl, List.Sublist.refl _⟩
    · have hpres1 : lookupA (updateA q.positions sym
          (markPosition pos row.close t)) sym =
          some (markPosition pos row.close t) :=
        lookupA_updateA_self sym (markPosition pos row.close t) q.positions hpres
      by_cases hslt : truthy config.stop_loss = true
      · by_cases htr : (pos.type = PositionType.long ∧
              row.close ≤ stopPriceOf config pos) ∨
              (pos.type = PositionType.short ∧ stopPriceOf config pos ≤ row.close)
        · have hntp : ∀ (htpt : truthy config.take_profit = true),
              ¬ ((pos.type = PositionType.long ∧
                  takeProfitPriceOf config pos ≤ row.close) ∨
                 (pos.type = PositionType.short ∧
                  row.close ≤ takeProfitPriceOf config pos)) :=
            fun htpt h2 =>
              no_double_trigger config pos row.close hep hsl htp hslt htpt htr h2
          refine ⟨{ q with
              cash := q.cash + (if pos.type = PositionType.long then
                  row.close * pos.quantity
                else if pos.type = PositionType.long then
                  (row.close - pos.entry_price) * pos.quantity
                else (pos.entry_price - row.close) * pos.quantity),
              positions := eraseA (updateA q.positions sym
                (markPosition pos row.close t)) sym,
              trades := q.trades ++
                [forcedCloseTrade sym pos row.close t "stop_loss"] },
            pv + pos.quantity * row.close, ?_, ?_,
            ⟨[forcedCloseTrade sym pos row.close t "stop_loss"], rfl,
              by simp [forcedCloseTrade]⟩, rfl, rfl, ?_⟩
          · by_cases htpt : truthy config.take_profit = true
            · simp [updateStateStep, hdf, hrow, stopLossCheck, takeProfitCheck,
                closePosition, hpres1, bind, Except.bind, pure, Except.pure,
                forcedCloseTrade, markPosition_type, markPosition_entry_price,
                markPosition_quantity, markPosition_entry_timestamp,
                markPosition_commission_paid, stopPriceOf_markPosition,
                takeProfitPriceOf_markPosition, hslt, htr, htpt, hntp htpt]
            · simp [updateStateStep, hdf, hrow, stopLossCheck, takeProfitCheck,
                closePosition, hpres1, bind, Except.bind, pure, Except.pure,
                forcedCloseTrade, markPosition_type, markPosition_entry_price,
                markPosition_quantity, markPosition_entry_timestamp,
                markPosition_commission_paid, stopPriceOf_markPosition,
                takeProfitPriceOf_markPosition, hslt, htr, htpt]
          · intro k hk
            dsimp only
            rw [lookupA_eraseA_ne sym k hk, lookupA_updateA_ne sym k
              (markPosition pos row.close t) hk]
          · dsimp only
            have h1 := keys_eraseA_sublist sym
              (updateA q.positions sym (markPosition pos row.close t))
            rw [keys_updateA sym (markPosition pos row.close t) q.positions] at h1
            exact h1
        · by_cases htpt : truthy config.take_profit = true
          · by_cases htr2 : (pos.type = PositionType.long ∧
                  takeProfitPriceOf config pos ≤ row.close) ∨
                  (pos.type = PositionType.short ∧
                  row.close ≤ takeProfitPriceOf config pos)
            · refine ⟨{ q with
                  cash := q.cash + (if pos.type = PositionType.long then
                      row.close * pos.quantity
                    else if pos.type = PositionType.long then
                      (row.close - pos.entry_price) * pos.quantity
                    else (pos.entry_price - row.close) * pos.quantity),
                  positions := eraseA (updateA q.positions sym
                    (markPosition pos row.close t)) sym,
                  trades := q.trades ++
                    [forcedCloseTrade sym pos row.close t "take_profit"] },
                pv + pos.quantity * row.close, ?_, ?_,
                ⟨[forcedCloseTrade sym pos row.close t "take_profit"], rfl,
                  by simp [forcedCloseTrade]⟩, rfl, rfl, ?_⟩
              · simp [updateStateStep, hdf, hrow, stopLossCheck, takeProfitCheck,
                  closePosition, hpres1, bind, Except.bind, pure, Except.pure,
                  forcedCloseTrade, markPosition_type, markPosition_entry_price,
                  markPosition_quantity, markPosition_entry_timestamp,
                  markPosition_commission_paid, stopPriceOf_markPosition,
                  takeProfitPriceOf_markPosition, hslt, htr, htpt, htr2]
              · intro k hk
                dsimp only
                rw [lookupA_eraseA_ne sym k hk, lookupA_updateA_ne sym k
                  (markPosition pos row.close t) hk]
              · dsimp only
                have h1 := keys_eraseA_sublist sym
                  (updateA q.positions sym (markPosition pos row.close t))
                rw [keys_updateA sym (markPosition pos row.close t) q.positions] at h1
                exact h1
            · refine ⟨{ q with
                  positions := updateA q.positions sym
                    (markPosition pos row.close t) },
                pv + pos.quantity * row.close, ?_, ?_,
                ⟨[], by simp, by simp⟩, rfl, rfl, ?_⟩
              · simp [updateStateStep, hdf, hrow, stopLossCheck, takeProfitCheck,
                  closePosition, hpres1, bind, Except.bind, pure, Except.pure,
                  forcedCloseTrade, markPosition_type, markPosition_entry_price,
                  markPosition_quantity, markPosition_entry_timestamp,
                  markPosition_commission_paid, stopPriceOf_markPosition,
                  takeProfitPriceOf_markPosition, hslt, htr, htpt, htr2]
              · intro k hk
                dsimp only
                rw [lookupA_updateA_ne sym k (markPosition pos row.close t) hk]
              · dsimp only
                rw [keys_updateA sym (markPosition pos row.close t) q.positions]
          · refine ⟨{ q with
                positions := updateA q.positions sym
                  (markPosition pos row.close t) },
              pv + pos.quantity * row.close, ?_, ?_,
              ⟨[], by simp, by simp⟩, rfl, rfl, ?_⟩
            · simp [updateStateStep, hdf, hrow, stopLossCheck, takeProfitCheck,
                closePosition, hpres1, bind, Except.bind, pure, Except.pure,
                forcedCloseTrade, markPosition_type, markPosition_entry_price,
                markPosition_quantity, markPosition_entry_timestamp,
                markPosition_commission_paid, stopPriceOf_markPosition,
                takeProfitPriceOf_markPosition, hslt, htr, htpt]
            · intro k hk
              dsimp only
              rw [lookupA_updateA_ne sym k (markPosition pos row.close t) hk]
            · dsimp only
              rw [keys_updateA sym (markPosition pos row.close t) q.positions]
      · by_cases htpt : truthy config.take_profit = true
        · by_cases htr2 : (pos.type = PositionType.long ∧
                takeProfitPriceOf config pos ≤ row.close) ∨
                (pos.type = PositionType.short ∧
                row.close ≤ takeProfitPriceOf config pos)
          · refine ⟨{ q with
                cash := q.cash + (if pos.type = PositionType.long then
                    row.close * pos.quantity
                  else if pos.type = PositionType.long then
                    (row.close - pos.entry_price) * pos.quantity
                  else (pos.entry_price - row.close) * pos.quantity),
                positions := eraseA (updateA q.positions sym
                  (markPosition pos row.close t)) sym,
                trades := q.trades ++
                  [forcedCloseTrade sym pos row.close t "take_profit"] },
              pv + pos.quantity * row.close, ?_, ?_,
              ⟨[forcedCloseTrade sym pos row.close t "take_profit"], rfl,
                by simp [forcedCloseTrade]⟩, rfl, rfl, ?_⟩
            · simp [updateStateStep, hdf, hrow, stopLossCheck, takeProfitCheck,
                closePosition, hpres1, bind, Except.bind, pure, Except.pure,
                forcedCloseTrade, markPosition_type, markPosition_entry_price,
                markPosition_quantity, markPosition_entry_timestamp,
                markPosition_commission_paid, stopPriceOf_markPosition,
                takeProfitPriceOf_markPosition, hslt, htpt, htr2]
            · intro k hk
              dsimp only
              rw [lookupA_eraseA_ne sym k hk, lookupA_updateA_ne sym k
                (markPosition pos row.close t) hk]
            · dsimp only
              have h1 := keys_eraseA_sublist sym
                (updateA q.positions sym (markPosition pos row.close t))
              rw [keys_updateA sym (markPosition pos row.close t) q.positions] at h1
              exact h1
          · refine ⟨{ q with
                positions := updateA q.positions sym
                  (markPosition pos row.close t) },
              pv + pos.quantity * row.close, ?_, ?_,
              ⟨[], by simp, by simp⟩, rfl, rfl, ?_⟩
            · simp [updateStateStep, hdf, hrow, stopLossCheck, takeProfitCheck,
                closePosition, hpres1, bind, Except.bind, pure, Except.pure,
                forcedCloseTrade, markPosition_type, markPosition_entry_price,
                markPosition_quantity, markPosition_entry_timestamp,
                markPosition_commission_paid, stopPriceOf_markPosition,
                takeProfitPriceOf_markPosition, hslt, htpt, htr2]
            · intro k hk
              dsimp only
              rw [lookupA_updateA_ne sym k (markPosition pos row.close t) hk]
            · dsimp only
              rw [keys_updateA sym (markPosition pos row.close t) q.positions]
        · refine ⟨{ q with
              positions := updateA q.positions sym
                (markPosition pos row.close t) },
            pv + pos.quantity * row.close, ?_, ?_,
            ⟨[], by simp, by simp⟩, rfl, rfl, ?_⟩
          · simp [updateStateStep, hdf, hrow, stopLossCheck, takeProfitCheck,
              closePosition, hpres1, bind, Except.bind, pure, Except.pure,
              forcedCloseTrade, markPosition_type, markPosition_entry_price,
              markPosition_quantity, markPosition_entry_timestamp,
              markPosition_commission_paid, stopPriceOf_markPosition,
              takeProfitPriceOf_markPosition, hslt, htpt]
          · intro k hk
            dsimp only
            rw [lookupA_updateA_ne sym k (markPosition pos row.close t) hk]
          · dsimp only
            rw [keys_updateA sym (markPosition pos row.close t) q.positions]


theorem updateStateStep_close (config : BacktestConfig) (data : DataMap)
    (t : Int) (q : Portfolio) (pv : ℚ) (sym : String) (pos : Position)
    (df : Frame) (row : Bar) (reason : String)
    (hpres : (lookupA q.positions sym).isSome = true)
    (hdf : lookupA data sym = some df) (hrow : lookupF df t = some row)
    (hep : 0 < pos.entry_price)
    (hsl : ∀ sl, config.stop_loss = some sl → 0 < sl)
    (htp : ∀ tp, config.take_profit = some tp → 0 < tp)
    (htrig :
      (reason = "stop_loss" ∧ truthy config.stop_loss = true ∧
        ((pos.type = PositionType.long ∧ row.close ≤ stopPriceOf config pos) ∨
         (pos.type = PositionType.short ∧ stopPriceOf config pos ≤ row.close))) ∨
      (reason = "take_profit" ∧ truthy config.take_profit = true ∧
        ((pos.type = PositionType.long ∧ takeProfitPriceOf config pos ≤ row.close) ∨
         (pos.type = PositionType.short ∧ row.close ≤ takeProfitPriceOf config pos)))) :
    ∃ q', updateStateStep config data t (q, pv) (sym, pos) =
        .ok (q', pv + pos.quantity * row.close) ∧
      q'.positions = eraseA (updateA q.positions sym
        (markPosition pos row.close t)) sym ∧
      q'.trades = q.trades ++ [forcedCloseTrade sym pos row.close t reason] ∧
      q'.orders = q.orders ∧ q'.equity_curve = q.equity_curve := by
  have hpres1 : lookupA (updateA q.positions sym
      (markPosition pos row.close t)) sym =
      some (markPosition pos row.close t) :=
    lookupA_updateA_self sym (markPosition pos row.close t) q.positions hpres
  rcases htrig with ⟨hr, hslt, htr⟩ | ⟨hr, htpt, htr⟩
  · subst hr
    have hntp : ∀ (htpt : truthy config.take_profit = true),
        ¬ ((pos.type = PositionType.long ∧
            takeProfitPriceOf config pos ≤ row.close) ∨
           (pos.type = PositionType.short ∧
            row.close ≤ takeProfitPriceOf config pos)) :=
      fun htpt h2 =>
        no_double_trigger config pos row.close hep hsl htp hslt htpt htr h2
    refine ⟨{ q with
        cash := q.cash + (if pos.type = PositionType.long then
            row.close * pos.quantity
          else if pos.type = PositionType.long then
            (row.close - pos.entry_price) * pos.quantity
          else (pos.entry_price - row.close) * pos.quantity),
        positions := eraseA (updateA q.positions sym
          (markPosition pos row.close t)) sym,
        trades := q.trades ++
          [forcedCloseTrade sym pos row.close t "stop_loss"] },
      ?_, rfl, rfl, rfl, rfl⟩
    by_cases htpt : truthy config.take_profit = true
    · simp [updateStateStep, hdf, hrow, stopLossCheck, takeProfitCheck,
        closePosition, hpres1, bind, Except.bind, pure, Except.pure,
        forcedCloseTrade, markPosition_type, markPosition_entry_price,
        markPosition_quantity, markPosition_entry_timestamp,
        markPosition_commission_paid, stopPriceOf_markPosition,
        takeProfitPriceOf_markPosition, hslt, htr, htpt, hntp htpt]
    · simp [updateStateStep, hdf, hrow, stopLossCheck, takeProfitCheck,
        closePosition, hpres1, bind, Except.bind, pure, Except.pure,
        forcedCloseTrade, markPosition_type, markPosition_entry_price,
        markPosition_quantity, markPosition_entry_timestamp,
        markPosition_commission_paid, stopPriceOf_markPosition,
        takeProfitPriceOf_markPosition, hslt, htr, htpt]
  · subst hr
    have hnsl : ∀ (hslt : truthy config.stop_loss = true),
        ¬ ((pos.type = PositionType.long ∧
            row.close ≤ stopPriceOf config pos) ∨
           (pos.type = PositionType.short ∧
            stopPriceOf config pos ≤ row.close)) :=
      fun hslt h1 =>
        no_double_trigger config pos row.close hep hsl htp hslt htpt h1 htr
    refine ⟨{ q with
        cash := q.cash + (if pos.type = PositionType.long then
            row.close * pos.quantity
          else if pos.type = PositionType.long then
            (row.close - pos.entry_price) * pos.quantity
          else (pos.entry_price - row.close) * pos.quantity),
        positions := eraseA (updateA q.positions sym
          (markPosition pos row.close t)) sym,
        trades := q.trades ++
          [forcedCloseTrade sym pos row.close t "take_profit"] },
      ?_, rfl, rfl, rfl, rfl⟩
    by_cases hslt : truthy config.stop_loss = true
    · simp [updateStateStep, hdf, hrow, stopLossCheck, takeProfitCheck,
        closePosition, hpres1, bind, Except.bind, pure, Except.pure,
        forcedCloseTrade, markPosition_type, markPosition_entry_price,
        markPosition_quantity, markPosition_entry_timestamp,
        markPosition_commission_paid, stopPriceOf_markPosition,
        takeProfitPriceOf_markPosition, hslt, hnsl hslt, htpt, htr]
    · simp [updateStateStep, hdf, hrow, stopLossCheck, takeProfitCheck,
        closePosition, hpres1, bind, Except.bind, pure, Except.pure,
        forcedCloseTrade, markPosition_type, markPosition_entry_price,
        markPosition_quantity, markPosition_entry_timestamp,
        markPosition_commission_paid, stopPriceOf_markPosition,
        takeProfitPriceOf_markPosition, hslt, htpt, htr]


theorem updateStateGo_avoid (config : BacktestConfig) (data : DataMap)
    (t : Int) (sym : String)
    (hsl : ∀ sl, config.stop_loss = some sl → 0 < sl)
    (htp : ∀ tp, config.take_profit = some tp → 0 < tp) :
    ∀ (L : List (String × Position)) (q : Portfolio) (pv : ℚ),
      sym ∉ L.map Prod.fst →
      (L.map Prod.fst).Nodup →
      (∀ e2 ∈ L, (lookupA q.positions e2.1).isSome = true) →
      (∀ e2 ∈ L, 0 < e2.2.entry_price) →
      ∃ q' pv', updateStateGo config data t L q pv = .ok (q', pv') ∧
        lookupA q'.positions sym = lookupA q.positions sym ∧
        q'.trades.filter (fun tr => tr.symbol == sym) =
          q.trades.filter (fun tr => tr.symbol == sym) ∧
        q'.orders = q.orders ∧ q'.equity_curve = q.equity_curve ∧
        List.Sublist (q'.positions.map Prod.fst) (q.positions.map Prod.fst) := by
  intro L
  induction L with
  | nil =>
      intro q pv _ _ _ _
      exact ⟨q, pv, rfl, rfl, rfl, rfl, rfl, List.Sublist.refl _⟩
  | cons e rest ih =>
      intro q pv hnot hLN hpres hpos
      simp only [List.map_cons, List.mem_cons, not_or] at hnot
      obtain ⟨hne, hnot2⟩ := hnot
      simp only [List.map_cons, List.nodup_cons] at hLN
      obtain ⟨hhead, hLN2⟩ := hLN
      obtain ⟨q1, pv1, hstep, hlk1, ⟨extra, hex, hexs⟩, hor1, hcu1, hsub1⟩ :=
        updateStateStep_char config data t q pv e
          (hpres e (List.mem_cons_self _ _)) (hpos e (List.mem_cons_self _ _))
          hsl htp
      obtain ⟨q2, pv2, hgo, hlk2, hfil2, hor2, hcu2, hsub2⟩ :=
        ih q1 pv1 hnot2 hLN2
          (fun e2 he2 => by
            have hne2 : e2.1 ≠ e.1 := fun hc =>
              hhead (hc ▸ List.mem_map_of_mem Prod.fst he2)
            rw [hlk1 e2.1 hne2]
            exact hpres e2 (List.mem_cons_of_mem _ he2))
          (fun e2 he2 => hpos e2 (List.mem_cons_of_mem _ he2))
      have hef : extra.filter (fun tr => tr.symbol == sym) = [] := by
        rw [List.filter_eq_nil_iff]
        intro tr htr
        simp only [beq_iff_eq, hexs tr htr]
        exact fun hc => hne hc.symm
      refine ⟨q2, pv2, ?_, ?_, ?_, hor2.trans hor1, hcu2.trans hcu1,
        hsub2.trans hsub1⟩
      · rw [updateStateGo]
        simp only [bind, Except.bind]
        rw [hstep]
        exact hgo
      · rw [hlk2, hlk1 sym (fun hc => hne hc)]
      · rw [hfil2, hex, List.filter_append, hef, List.append_nil]

theorem updateStateGo_close (config : BacktestConfig) (data : DataMap)
    (t : Int) (sym : String) (pos : Position) (df : Frame) (row : Bar)
    (reason : String)
    (hdf : lookupA data sym = some df) (hrow : lookupF df t = some row)
    (hsl : ∀ sl, config.stop_loss = some sl → 0 < sl)
    (htp : ∀ tp, config.take_profit = some tp → 0 < tp)
    (hep : 0 < pos.entry_price)
    (htrig :
      (reason = "stop_loss" ∧ truthy config.stop_loss = true ∧
        ((pos.type = PositionType.long ∧ row.close ≤ stopPriceOf config pos) ∨
         (pos.type = PositionType.short ∧ stopPriceOf config pos ≤ row.close))) ∨
      (reason = "take_profit" ∧ truthy config.take_profit = true ∧
        ((pos.type = PositionType.long ∧ takeProfitPriceOf config pos ≤ row.close) ∨
         (pos.type = PositionType.short ∧ row.close ≤ takeProfitPriceOf config pos)))) :
    ∀ (L : List (String × Position)) (q : Portfolio) (pv : ℚ),
      (L.map Prod.fst).Nodup →
      (q.positions.map Prod.fst).Nodup →
      (∀ e2 ∈ L, (lookupA q.positions e2.1).isSome = true) →
      (∀ e2 ∈ L, 0 < e2.2.entry_price) →
      (sym, pos) ∈ L →
      ∃ q' pv', updateStateGo config data t L q pv = .ok (q', pv') ∧
        lookupA q'.positions sym = none ∧
        q'.trades.filter (fun tr => tr.symbol == sym) =
          q.trades.filter (fun tr => tr.symbol == sym) ++
            [forcedCloseTrade sym pos row.close t reason] ∧
        q'.orders = q.orders ∧ q'.equity_curve = q.equity_curve := by
  intro L
  induction L with
  | nil =>
      intro q pv _ _ _ _ hmem
      exact absurd hmem (List.not_mem_nil _)
  | cons e rest ih =>
      intro q pv hLN hqN hpres hpos hmem
      rcases List.mem_cons.mp hmem with heq | hmem2
      · subst heq
        simp only [List.map_cons, List.nodup_cons] at hLN
        obtain ⟨hhead, hLN2⟩ := hLN
        obtain ⟨q1, hstep, hq1pos, hq1tr, hq1or, hq1cu⟩ :=
          updateStateStep_close config data t q pv sym pos df row reason
            (hpres (sym, pos) (List.mem_cons_self _ _)) hdf hrow hep hsl htp htrig
        obtain ⟨q2, pv2, hgo, hlk2, hfil2, hor2, hcu2, hsub2⟩ :=
          updateStateGo_avoid config data t sym hsl htp rest q1
            (pv + pos.quantity * row.close) hhead hLN2
            (fun e2 he2 => by
              have hne2 : e2.1 ≠ sym := fun hc =>
                hhead (hc ▸ List.mem_map_of_mem Prod.fst he2)
              rw [hq1pos, lookupA_eraseA_ne sym e2.1 hne2,
                lookupA_updateA_ne sym e2.1 (markPosition pos row.close t) hne2]
              exact hpres e2 (List.mem_cons_of_mem _ he2))
            (fun e2 he2 => hpos e2 (List.mem_cons_of_mem _ he2))
        refine ⟨q2, pv2, ?_, ?_, ?_, hor2.trans hq1or, hcu2.trans hq1cu⟩
        · rw [updateStateGo]
          simp only [bind, Except.bind]
          rw [hstep]
          exact hgo
        · rw [hlk2, hq1pos]
          exact lookupA_eraseA_self sym _
            (by rw [keys_updateA sym (markPosition pos row.close t) q.positions]
                exact hqN)
        · rw [hfil2, hq1tr, List.filter_append]
          simp [forcedCloseTrade]
      · simp only [List.map_cons, List.nodup_cons] at hLN
        obtain ⟨hhead, hLN2⟩ := hLN
        have hsymrest : sym ∈ rest.map Prod.fst :=
          List.mem_map_of_mem Prod.fst hmem2
        have hne : sym ≠ e.1 := fun hc => hhead (hc ▸ hsymrest)
        obtain ⟨q1, pv1, hstep, hlk1, ⟨extra, hex, hexs⟩, hor1, hcu1, hsub1⟩ :=
          updateStateStep_char config data t q pv e
            (hpres e (List.mem_cons_self _ _)) (hpos e (List.mem_cons_self _ _))
            hsl htp
        obtain ⟨q2, pv2, hgo, hlkNone, hfil2, hor2, hcu2⟩ :=
          ih q1 pv1 hLN2 (List.Nodup.sublist hsub1 hqN)
            (fun e2 he2 => by
              have hne2 : e2.1 ≠ e.1 := fun hc =>
                hhead (hc ▸ List.mem_map_of_mem Prod.fst he2)
              rw [hlk1 e2.1 hne2]
              exact hpres e2 (List.mem_cons_of_mem _ he2))
            (fun e2 he2 => hpos e2 (List.mem_cons_of_mem _ he2)) hmem2
        have hef : extra.filter (fun tr => tr.symbol == sym) = [] := by
          rw [List.filter_eq_nil_iff]
          intro tr htr
          simp only [beq_iff_eq, hexs tr htr]
          exact fun hc => hne hc.symm
        refine ⟨q2, pv2, ?_, hlkNone, ?_, hor2.trans hor1, hcu2.trans hcu1⟩
        · rw [updateStateGo]
          simp only [bind, Except.bind]
          rw [hstep]
          exact hgo
        · rw [hfil2, hex, List.filter_append, hef, List.append_nil]

/-- C1: for every simulated timestamp `t` and every open position `(sym, pos)`
with a bar at `t`, if `config.stop_loss` is a positive fraction and the bar
close breaches `entry_price * (1 - stop_loss)` for a long (symmetrically
`entry_price * (1 + stop_loss)` for a short), then `_update_portfolio_state`
removes the position from the open-positions mapping and appends exactly one
Trade for that symbol, whose closing reason is `stop_loss`; the same holds
with inverted direction for `take_profit` with reason `take_profit`.  The
order list is untouched: the forced close bypasses the signal/order path.
(`stopPriceOf`/`takeProfitPriceOf` unfold to exactly those trigger prices;
`_close_position` is spec-modelled as `closePosition`.) -/
theorem c1_risk_exit_forced_close (config : BacktestConfig) (data : DataMap)
    (t : Int) (p : Portfolio) (sym : String) (pos : Position) (df : Frame)
    (row : Bar) (reason : String)
    (hN : (p.positions.map Prod.fst).Nodup)
    (hmem : (sym, pos) ∈ p.positions)
    (hallpos : ∀ e2 ∈ p.positions, 0 < e2.2.entry_price)
    (hdf : lookupA data sym = some df)
    (hrow : lookupF df t = some row)
    (hsl : ∀ sl, config.stop_loss = some sl → 0 < sl)
    (htp : ∀ tp, config.take_profit = some tp → 0 < tp)
    (htrig :
      (reason = "stop_loss" ∧ truthy config.stop_loss = true ∧
        ((pos.type = PositionType.long ∧
            row.close ≤ pos.entry_price * (1 - config.stop_loss.getD 0)) ∨
         (pos.type = PositionType.short ∧
            pos.entry_price * (1 + config.stop_loss.getD 0) ≤ row.close))) ∨
      (reason = "take_profit" ∧ truthy config.take_profit = true ∧
        ((pos.type = PositionType.long ∧
            pos.entry_price * (1 + config.take_profit.getD 0) ≤ row.close) ∨
         (pos.type = PositionType.short ∧
            row.close ≤ pos.entry_price * (1 - config.take_profit.getD 0))))) :
    ∃ p', updatePortfolioState config data t p = .ok p'
      ∧ lookupA p'.positions sym = none
      ∧ p'.trades.filter (fun tr => tr.symbol == sym) =
          p.trades.filter (fun tr => tr.symbol == sym) ++
            [forcedCloseTrade sym pos row.close t reason]
      ∧ (forcedCloseTrade sym pos row.close t reason).reason = some reason
      ∧ p'.orders = p.orders := by
  have htrig2 :
      (reason = "stop_loss" ∧ truthy config.stop_loss = true ∧
        ((pos.type = PositionType.long ∧ row.close ≤ stopPriceOf config pos) ∨
         (pos.type = PositionType.short ∧ stopPriceOf config pos ≤ row.close))) ∨
      (reason = "take_profit" ∧ truthy config.take_profit = true ∧
        ((pos.type = PositionType.long ∧ takeProfitPriceOf config pos ≤ row.close) ∨
         (pos.type = PositionType.short ∧
          row.close ≤ takeProfitPriceOf config pos))) := by
    rcases htrig with ⟨hr, ht, hc⟩ | ⟨hr, ht, hc⟩
    · refine Or.inl ⟨hr, ht, ?_⟩
      rcases hc with ⟨hty, hc⟩ | ⟨hty, hc⟩
      · exact Or.inl ⟨hty, by rw [stopPriceOf, if_pos hty]; exact hc⟩
      · refine Or.inr ⟨hty, ?_⟩
        rw [stopPriceOf, if_neg (by rw [hty]; decide)]
        exact hc
    · refine Or.inr ⟨hr, ht, ?_⟩
      rcases hc with ⟨hty, hc⟩ | ⟨hty, hc⟩
      · exact Or.inl ⟨hty, by rw [takeProfitPriceOf, if_pos hty]; exact hc⟩
      · refine Or.inr ⟨hty, ?_⟩
        rw [takeProfitPriceOf, if_neg (by rw [hty]; decide)]
        exact hc
  obtain ⟨q', pv', hgo, hlk, hfil, hor, hcu⟩ :=
    updateStateGo_close config data t sym pos df row reason hdf hrow hsl htp
      (hallpos (sym, pos) hmem) htrig2 p.positions p 0 hN hN
      (fun e2 he2 => isSome_lookupA_of_mem e2.1 e2.2 p.positions
        (by rw [Prod.mk.eta]; exact he2))
      hallpos hmem
  refine ⟨{ q' with equity := q'.cash + pv' }, ?_, hlk, hfil, rfl, hor⟩
  rw [updatePortfolioState]
  simp only [bind, Except.bind]
  rw [hgo]
  rfl

/-- Witness for C1: a long position in `"A"` entered at 100 with a 2%
stop-loss and a bar closing at 97 (breaching the 98 trigger) is force-closed
with a `stop_loss` trade and untouched orders. -/
theorem c1_risk_exit_forced_close_witness :
    ∃ p', updatePortfolioState cfgC1 dataC1 1 pC1 = .ok p'
      ∧ lookupA p'.positions "A" = none
      ∧ p'.trades.filter (fun tr => tr.symbol == "A") =
          pC1.trades.filter (fun tr => tr.symbol == "A") ++
            [forcedCloseTrade "A" posC1 (barAt 97).close 1 "stop_loss"]
      ∧ (forcedCloseTrade "A" posC1 (barAt 97).close 1 "stop_loss").reason =
          some "stop_loss"
      ∧ p'.orders = pC1.orders :=
  c1_risk_exit_forced_close cfgC1 dataC1 1 pC1 "A" posC1 [(1, barAt 97)]
    (barAt 97) "stop_loss"
    (by simp [pC1])
    (by simp [pC1])
    (by intro e2 he2
        simp only [pC1, List.mem_singleton] at he2
        rw [he2]
        norm_num [posC1])
    rfl rfl
    (by intro sl h
        simp only [cfgC1] at h
        rw [Option.some.injEq] at h
        rw [← h]
        norm_num)
    (by intro tp h
        simp [cfgC1, cfgW] at h)
    (Or.inl ⟨rfl, by norm_num [cfgC1, truthy], Or.inl ⟨rfl,
      by norm_num [posC1, cfgC1, barAt, bar100]⟩⟩)


theorem scanConditions_cases (inds : List (String × IndValue)) (row : Bar) :
    ∀ conds : List Condition,
      (scanConditions conds inds row = .ok () ∧
        ∀ c ∈ conds, checkCondition c inds row = false) ∨
      (scanConditions conds inds row = .error .nameError ∧
        ∃ c ∈ conds, checkCondition c inds row = true) := by
  intro conds
  induction conds with
  | nil => exact Or.inl ⟨rfl, by simp⟩
  | cons c rest ih =>
      cases hc : checkCondition c inds row with
      | true =>
          exact Or.inr ⟨by simp [scanConditions, hc], c,
            List.mem_cons_self _ _, hc⟩
      | false =>
          rcases ih with ⟨hok, hall⟩ | ⟨herr, hex⟩
          · refine Or.inl ⟨by simp [scanConditions, hc, hok], ?_⟩
            intro c2 hc2
            rcases List.mem_cons.mp hc2 with h | h
            · rw [h]; exact hc
            · exact hall c2 h
          · refine Or.inr ⟨by simp [scanConditions, hc, herr], ?_⟩
            obtain ⟨c2, h2, h3⟩ := hex
            exact ⟨c2, List.mem_cons_of_mem _ h2, h3⟩

theorem generateSignalsGo_cases (calcInd : Frame → IndParams → IndValue)
    (strategy : StrategyConfig) (t : Int) :
    ∀ dl : DataMap,
      (generateSignalsGo calcInd strategy t dl = .ok [] ∧
        ∀ e ∈ dl, ∀ row, lookupF e.2 t = some row →
          ∀ c, (c ∈ strategy.entry_conditions ∨ c ∈ strategy.exit_conditions) →
            checkCondition c (indicatorsFor calcInd strategy e.2 t) row = false) ∨
      (generateSignalsGo calcInd strategy t dl = .error .nameError ∧
        ∃ e ∈ dl, ∃ row, lookupF e.2 t = some row ∧
          ∃ c, (c ∈ strategy.entry_conditions ∨ c ∈ strategy.exit_conditions) ∧
            checkCondition c (indicatorsFor calcInd strategy e.2 t) row = true) := by
  intro dl
  induction dl with
  | nil => exact Or.inl ⟨rfl, by simp⟩
  | cons e rest ih =>
      obtain ⟨s, df⟩ := e
      rcases hrow : lookupF df t with _ | row
      · rcases ih with ⟨hok, hall⟩ | ⟨herr, hex⟩
        · refine Or.inl ⟨by simp [generateSignalsGo, hrow, hok], ?_⟩
          intro e2 he2 row2 hrow2 c hc
          rcases List.mem_cons.mp he2 with he2 | he2
          · rw [he2] at hrow2
            dsimp only at hrow2
            rw [hrow] at hrow2
            simp at hrow2
          · exact hall e2 he2 row2 hrow2 c hc
        · refine Or.inr ⟨by simp [generateSignalsGo, hrow, herr], ?_⟩
          obtain ⟨e2, he2, r⟩ := hex
          exact ⟨e2, List.mem_cons_of_mem _ he2, r⟩
      · rcases scanConditions_cases (indicatorsFor calcInd strategy df t) row
            strategy.entry_conditions with ⟨hsc1, hall1⟩ | ⟨hsc1, hex1⟩
        · rcases scanConditions_cases (indicatorsFor calcInd strategy df t) row
              strategy.exit_conditions with ⟨hsc2, hall2⟩ | ⟨hsc2, hex2⟩
          · rcases ih with ⟨hok, hall⟩ | ⟨herr, hex⟩
            · refine Or.inl ⟨by simp [generateSignalsGo, hrow, hsc1, hsc2, hok,
                bind, Except.bind], ?_⟩
              intro e2 he2 row2 hrow2 c hc
              rcases List.mem_cons.mp he2 with he2 | he2
              · rw [he2] at hrow2 ⊢
                dsimp only at hrow2 ⊢
                rw [hrow] at hrow2
                injection hrow2 with hrow2
                subst hrow2
                rcases hc with hc | hc
                · exact hall1 c hc
                · exact hall2 c hc
              · exact hall e2 he2 row2 hrow2 c hc
            · refine Or.inr ⟨by simp [generateSignalsGo, hrow, hsc1, hsc2, herr,
                bind, Except.bind], ?_⟩
              obtain ⟨e2, he2, r⟩ := hex
              exact ⟨e2, List.mem_cons_of_mem _ he2, r⟩
          · refine Or.inr ⟨by simp [generateSignalsGo, hrow, hsc1, hsc2,
              bind, Except.bind], ?_⟩
            obtain ⟨c, hc, hct⟩ := hex2
            exact ⟨(s, df), List.mem_cons_self _ _, row, hrow, c, Or.inr hc, hct⟩
        · refine Or.inr ⟨by simp [generateSignalsGo, hrow, hsc1,
            bind, Except.bind], ?_⟩
          obtain ⟨c, hc, hct⟩ := hex1
          exact ⟨(s, df), List.mem_cons_self _ _, row, hrow, c, Or.inl hc, hct⟩

theorem simStep_clean (calcInd : Frame → IndParams → IndValue)
    (strategy : StrategyConfig) (config : BacktestConfig) (data : DataMap)
    (t : Int) (p : Portfolio) (n : Nat)
    (hpos : p.positions = []) (hord : p.orders = [])
    (hsig : generateSignals calcInd data strategy t = .ok []) :
    ∃ p', simStep calcInd strategy config data t (p, n) = .ok (p', n) ∧
      p'.positions = [] ∧ p'.orders = [] ∧ p'.trades = p.trades := by
  refine ⟨updateEquityCurve { p with equity := p.cash + 0, orders := [] } t,
    ?_, by simp [updateEquityCurve, hpos], by simp [updateEquityCurve], rfl⟩
  simp [simStep, updatePortfolioState, hpos, hord, updateStateGo, hsig,
    processSignals, processSignalsGo, processOrders, processOrdersGo,
    bind, Except.bind, pure, Except.pure]

theorem runSimulationGo_clean (calcInd : Frame → IndParams → IndValue)
    (strategy : StrategyConfig) (config : BacktestConfig) (data : DataMap) :
    ∀ (ts : List Int) (p : Portfolio) (n : Nat),
      p.positions = [] → p.orders = [] →
      (∀ t ∈ ts, generateSignals calcInd data strategy t = .ok []) →
      ∃ p' n', runSimulationGo calcInd strategy config data ts (p, n) =
          .ok (p', n')
        ∧ p'.positions = [] ∧ p'.orders = [] ∧ p'.trades = p.trades := by
  intro ts
  induction ts with
  | nil =>
      intro p n h1 h2 _
      exact ⟨p, n, rfl, h1, h2, rfl⟩
  | cons t ts ih =>
      intro p n h1 h2 hall
      obtain ⟨p1, hstep, hp1, ho1, ht1⟩ :=
        simStep_clean calcInd strategy config data t p n h1 h2
          (hall t (List.mem_cons_self _ _))
      obtain ⟨p2, n2, hgo, hp2, ho2, ht2⟩ := ih p1 n hp1 ho1
        (fun t2 ht2 => hall t2 (List.mem_cons_of_mem _ ht2))
      refine ⟨p2, n2, ?_, hp2, ho2, ht2.trans ht1⟩
      rw [runSimulationGo]
      simp only [bind, Except.bind]
      rw [hstep]
      exact hgo

theorem runSimulationGo_abort (calcInd : Frame → IndParams → IndValue)
    (strategy : StrategyConfig) (config : BacktestConfig) (data : DataMap) :
    ∀ (ts : List Int) (p : Portfolio) (n : Nat),
      p.positions = [] → p.orders = [] →
      (∃ t ∈ ts, generateSignals calcInd data strategy t = .error .nameError) →
      runSimulationGo calcInd strategy config data ts (p, n) =
        .error .nameError := by
  intro ts
  induction ts with
  | nil =>
      intro p n _ _ hex
      obtain ⟨t, ht, _⟩ := hex
      exact absurd ht (List.not_mem_nil _)
  | cons t ts ih =>
      intro p n h1 h2 hex
      rcases generateSignalsGo_cases calcInd strategy t data with
        ⟨hok, _⟩ | ⟨herr, _⟩
      · obtain ⟨p1, hstep, hp1, ho1, _⟩ :=
          simStep_clean calcInd strategy config data t p n h1 h2 hok
        have hex2 : ∃ t2 ∈ ts,
            generateSignals calcInd data strategy t2 = .error .nameError := by
          obtain ⟨t2, ht2, herr2⟩ := hex
          rcases List.mem_cons.mp ht2 with h | h
          · rw [h] at herr2
            unfold generateSignals at herr2
            rw [hok] at herr2
            simp at herr2
          · exact ⟨t2, h, herr2⟩
        rw [runSimulationGo]
        simp only [bind, Except.bind]
        rw [hstep]
        exact ih p1 n hp1 ho1 hex2
      · have hstep : simStep calcInd strategy config data t (p, n) =
            .error .nameError := by
          simp [simStep, updatePortfolioState, h1, updateStateGo,
            generateSignals, herr, bind, Except.bind, pure, Except.pure]
        rw [runSimulationGo]
        simp only [bind, Except.bind]
        rw [hstep]

/-- C2: for every strategy, data set and indicator evaluator, whenever some
entry or exit condition of the strategy evaluates to true on a symbol's bar
at a timestamp, `_generate_signals` raises an unhandled `NameError`: the
`BacktestSignal(...)` construction evaluates the module globals
`TrendDirection` and `SignalStrength`, neither of which is imported in
`app/services/backtest.py` (here `scanConditions` errors on the first
matching condition).  A successful `_generate_signals` therefore always
returns the empty signal list; if the error occurs at any simulated
timestamp it propagates out of `run_backtest` and aborts the run, and the
run completes exactly when no condition ever matches. -/
theorem c2_signal_name_error_aborts (sqrtF : ℚ → ℚ) (powF : ℚ → ℚ → ℚ)
    (calcInd : Frame → IndParams → IndValue) (uuids : Nat → Nat) (now : Int)
    (strategy : StrategyConfig) (config : BacktestConfig) (data : DataMap) :
    (∀ t sym df row c, (sym, df) ∈ data → lookupF df t = some row →
      (c ∈ strategy.entry_conditions ∨ c ∈ strategy.exit_conditions) →
      checkCondition c (indicatorsFor calcInd strategy df t) row = true →
      generateSignals calcInd data strategy t = .error .nameError)
    ∧ (∀ t sigs, generateSignals calcInd data strategy t = .ok sigs → sigs = [])
    ∧ ((∃ t ∈ sortedTimestamps data,
        generateSignals calcInd data strategy t = .error .nameError) →
      runBacktest sqrtF powF calcInd uuids now strategy config data =
        .error .nameError)
    ∧ ((∀ t ∈ sortedTimestamps data,
        generateSignals calcInd data strategy t = .ok []) →
      ∃ r, runBacktest sqrtF powF calcInd uuids now strategy config data =
        .ok r) := by
  refine ⟨?_, ?_, ?_, ?_⟩
  · intro t sym df row c hmem hrow hc hct
    rcases generateSignalsGo_cases calcInd strategy t data with
      ⟨hok, hall⟩ | ⟨herr, _⟩
    · rw [hall (sym, df) hmem row hrow c hc] at hct
      simp at hct
    · exact herr
  · intro t sigs h
    unfold generateSignals at h
    rcases generateSignalsGo_cases calcInd strategy t data with
      ⟨hok, _⟩ | ⟨herr, _⟩
    · rw [hok] at h
      injection h with h
      exact h.symm
    · rw [herr] at h
      simp at h
  · intro hex
    have habort := runSimulationGo_abort calcInd strategy config data
      (sortedTimestamps data) (initializePortfolio config) 0 rfl rfl hex
    simp [runBacktest, runSimulation, habort, bind, Except.bind]
  · intro hall
    obtain ⟨p', n', hgo, hp', ho', ht'⟩ := runSimulationGo_clean calcInd
      strategy config data (sortedTimestamps data)
      (initializePortfolio config) 0 rfl rfl hall
    have htr : p'.trades = [] := ht'
    have hm : calculateMetrics sqrtF powF p' = .ok none := by
      simp [calculateMetrics, htr]
    refine ⟨{ id := uuids n',
              config := config, stats := {},
              equity_curve := p'.equity_curve, trades := p'.trades,
              positions := p'.positions.map (fun sp => sp.2),
              orders := p'.orders.map (fun o => { o with id := uuids o.id }),
              metrics := none, created_at := now }, ?_⟩
    simp only [runBacktest, runSimulation, bind, Except.bind]
    rw [hgo]
    dsimp only
    rw [hm]
    dsimp only
    simp [calculateStats, htr, pure, Except.pure]

/-- Witness for C2: with the constant indicator evaluator `5`, a strategy
whose entry condition is `rsi > 3` matches on the first bar of `dataW`, so
signal generation raises `NameError` and the whole run aborts with it. -/
theorem c2_signal_name_error_aborts_witness :
    generateSignals (fun _ _ => IndValue.num 5) dataW stratC2 1 =
      .error .nameError
    ∧ runBacktest (fun x => x) (fun x _ => x) (fun _ _ => IndValue.num 5)
        (fun k => k) 0 stratC2 cfgW dataW = .error .nameError := by
  have hchk : checkCondition condC2
      (indicatorsFor (fun _ _ => IndValue.num 5) stratC2
        [(1, bar100), (2, bar100)] 1) bar100 = true := by
    norm_num [checkCondition, checkConditionExc, condC2, indicatorsFor,
      stratC2, truncFrame, lookupA, pyGT, getKey, bind, Except.bind, pure,
      Except.pure, bar100]
  have h1 := (c2_signal_name_error_aborts (fun x => x) (fun x _ => x)
      (fun _ _ => IndValue.num 5) (fun k => k) 0 stratC2 cfgW dataW).1
      1 "A" [(1, bar100), (2, bar100)] bar100 condC2 (by simp [dataW])
      rfl (Or.inl (by simp [stratC2])) hchk
  refine ⟨h1, ?_⟩
  exact (c2_signal_name_error_aborts (fun x => x) (fun x _ => x)
      (fun _ _ => IndValue.num 5) (fun k => k) 0 stratC2 cfgW dataW).2.2.1
    ⟨1, by decide, h1⟩

end Backtest
